import Mathlib

/-!
A shallow embedding of the resume date-validation engine of the Resumind
repository (src/app/lib/date-validation: parser, service, typo-detector,
suggestion-generator, constants, config), together with theorems checking the
specification's claims about it.

Modeling conventions:
* JavaScript strings are `List Char` (`Str`); all scanning is explicit.
* JavaScript numbers are exact fractions (`JsNum`): every numeric literal in
  the source is a small decimal, and all arithmetic performed on them
  (addition, multiplication, division, comparison) is exact at these
  magnitudes, so exact fractions are a faithful model.
* JavaScript `Date` objects are civil dates (`JSDate`); `getTime` is the
  number of milliseconds since the epoch at local midnight of that date (all
  dates constructed by the code are midnights).
* `new Date()` (the current instant) is passed in as an explicit `now`
  parameter.
* Logging calls are pure no-ops and are dropped; `try`/`catch` blocks whose
  bodies are total in this model are dropped (their handlers are dead code
  here), except the orchestrator's top-level handler, which is modeled
  explicitly over `Except`.
-/

/-- JavaScript strings are modeled as lists of characters. -/
abbrev Str := List Char

/-! ## Exact executable fractions modeling JavaScript numbers -/

/-- An exact fraction with a positive denominator. Models the JavaScript
numbers used by the validation engine (decimal literals, their sums/products,
and quotients of millisecond counts). Fractions are not normalized. -/
structure JsNum where
  num : Int
  den : Int
  den_pos : 0 < den

instance : DecidableEq JsNum := fun a b =>
  decidable_of_iff (a.num = b.num ∧ a.den = b.den) (by cases a; cases b; simp_all)

/-- Embed an integer. -/
def jsn (n : Int) : JsNum := ⟨n, 1, by decide⟩

instance : OfNat JsNum n := ⟨jsn n⟩

instance : OfScientific JsNum :=
  ⟨fun m b e =>
    if b then ⟨(m : Int), (10 : Int) ^ e, by positivity⟩
    else ⟨(m : Int) * (10 : Int) ^ e, 1, by decide⟩⟩

def JsNum.add (a b : JsNum) : JsNum :=
  ⟨a.num * b.den + b.num * a.den, a.den * b.den, mul_pos a.den_pos b.den_pos⟩

def JsNum.sub (a b : JsNum) : JsNum :=
  ⟨a.num * b.den - b.num * a.den, a.den * b.den, mul_pos a.den_pos b.den_pos⟩

def JsNum.mul (a b : JsNum) : JsNum :=
  ⟨a.num * b.num, a.den * b.den, mul_pos a.den_pos b.den_pos⟩

def JsNum.neg (a : JsNum) : JsNum := ⟨-a.num, a.den, a.den_pos⟩

/-- Division. Division by zero (unreachable in the modeled code paths, where
every divisor is a positive constant or a positive count) is mapped to 0. -/
def JsNum.div (a b : JsNum) : JsNum :=
  if h : 0 < b.num then ⟨a.num * b.den, a.den * b.num, mul_pos a.den_pos h⟩
  else if h2 : b.num < 0 then
    ⟨-(a.num * b.den), a.den * (-b.num), mul_pos a.den_pos (by omega)⟩
  else ⟨0, 1, by decide⟩

instance : Add JsNum := ⟨JsNum.add⟩
instance : Sub JsNum := ⟨JsNum.sub⟩
instance : Mul JsNum := ⟨JsNum.mul⟩
instance : Neg JsNum := ⟨JsNum.neg⟩
instance : Div JsNum := ⟨JsNum.div⟩

/-- Comparison by cross-multiplication (denominators are positive). -/
def JsNum.le (a b : JsNum) : Prop := a.num * b.den ≤ b.num * a.den

def JsNum.lt (a b : JsNum) : Prop := a.num * b.den < b.num * a.den

instance : LE JsNum := ⟨JsNum.le⟩
instance : LT JsNum := ⟨JsNum.lt⟩

instance (a b : JsNum) : Decidable (a ≤ b) := Int.decLe _ _
instance (a b : JsNum) : Decidable (a < b) := Int.decLt _ _

/-- `Math.min` (both arguments are ordinary numbers here). -/
def jsMin (a b : JsNum) : JsNum := if a ≤ b then a else b

/-- `Math.ceil`, as an integer (the source only ever renders the result). -/
def JsNum.jsCeil (a : JsNum) : Int := Int.ediv (a.num + a.den - 1) a.den

/-! ## String (character-list) utilities -/

/-- `l.startsWithL p`: `p` is a prefix of `l`, by character equality. -/
def startsWithL : Str → Str → Bool
  | [], _ => true
  | _ :: _, [] => false
  | c :: cs, d :: ds => c == d && startsWithL cs ds

/-- JavaScript `String.prototype.includes`: `nd` occurs contiguously in
`hay` (case-sensitive). -/
def containsL (hay nd : Str) : Bool :=
  startsWithL nd hay ||
    match hay with
    | [] => false
    | _ :: t => containsL t nd

/-- JavaScript `toLowerCase` on the ASCII strings handled by the engine. -/
def toLowerL (s : Str) : Str := s.map Char.toLower

/-- JavaScript `String.prototype.trim`. -/
def trimL (s : Str) : Str :=
  ((s.dropWhile Char.isWhitespace).reverse.dropWhile Char.isWhitespace).reverse

/-- First index at which `nd` occurs in `hay` (JS `indexOf`; `none` for -1). -/
def idxOfSub? (hay nd : Str) : Option Nat :=
  if startsWithL nd hay then some 0
  else
    match hay with
    | [] => none
    | _ :: t => (idxOfSub? t nd).map (· + 1)

/-- JavaScript `String.prototype.replace` with a literal (non-regex) search
value: replaces the first occurrence only. -/
def replaceFirstL (s nd rep : Str) : Str :=
  match idxOfSub? s nd with
  | some i => s.take i ++ rep ++ s.drop (i + nd.length)
  | none => s

/-- `text.substring(a, b)` for `a ≤ b` within bounds (the only uses). -/
def substringL (s : Str) (a b : Nat) : Str := (s.drop a).take (b - a)

/-- `text.split('\n')`. -/
def splitLines (s : Str) : List Str := s.splitOn '\n'

/-- `lines.join('\n')`. -/
def joinLines (ls : List Str) : Str := List.intercalate ['\n'] ls

/-- Numeric value of a digit string (as used after the scanner has checked
every character is a digit). -/
def digitsVal (l : Str) : Nat := l.foldl (fun a c => a * 10 + (c.toNat - 48)) 0

def digitChar (d : Nat) : Char := Char.ofNat (48 + d)

def renderNatAux : Nat → Nat → Str
  | 0, _ => []
  | fuel + 1, n => if n < 10 then [digitChar n] else renderNatAux fuel (n / 10) ++ [digitChar (n % 10)]

/-- Decimal rendering of a natural number (JS number-to-string for the
integral values the engine renders). -/
def renderNat (n : Nat) : Str := renderNatAux (n + 1) n

/-- Decimal rendering of an integer. -/
def renderInt (n : Int) : Str :=
  if n < 0 then '-' :: renderNat n.natAbs else renderNat n.natAbs

/-! ## JavaScript dates -/

/-- A JavaScript `Date` at local midnight: year, 0-based month, 1-based day.
Every `Date` constructed by the engine is such a midnight. -/
structure JSDate where
  year : Int
  month : Nat
  day : Nat
deriving DecidableEq

/-- Days from the civil epoch 1970-01-01 (month is 1-based here); the
standard civil-from-days algorithm. -/
def daysFromCivil (y m d : Int) : Int :=
  let y2 : Int := if m ≤ 2 then y - 1 else y
  let era : Int := Int.ediv y2 400
  let yoe : Int := y2 - era * 400
  let mp : Int := Int.emod (m + 9) 12
  let doy : Int := Int.ediv (153 * mp + 2) 5 + d - 1
  let doe : Int := yoe * 365 + Int.ediv yoe 4 - Int.ediv yoe 100 + doy
  era * 146097 + doe - 719468

/-- Inverse of `daysFromCivil`. -/
def civilFromDays (z0 : Int) : JSDate :=
  let z : Int := z0 + 719468
  let era : Int := Int.ediv z 146097
  let doe : Int := z - era * 146097
  let yoe : Int := Int.ediv (doe - Int.ediv doe 1460 + Int.ediv doe 36524 - Int.ediv doe 146096) 365
  let y : Int := yoe + era * 400
  let doy : Int := doe - (365 * yoe + Int.ediv yoe 4 - Int.ediv yoe 100)
  let mp : Int := Int.ediv (5 * doy + 2) 153
  let d : Int := doy - Int.ediv (153 * mp + 2) 5 + 1
  let m : Int := if mp < 10 then mp + 3 else mp - 9
  let y2 : Int := if m ≤ 2 then y + 1 else y
  ⟨y2, (m - 1).toNat, d.toNat⟩

/-- `Date.prototype.getTime`: milliseconds since the epoch. -/
def JSDate.getTime (d : JSDate) : Int :=
  86400000 * daysFromCivil d.year ((d.month : Int) + 1) (d.day : Int)

/-- `new Date(ms)` for a whole number of days of milliseconds. -/
def dateOfTime (t : Int) : JSDate := civilFromDays (Int.ediv t 86400000)

/-- `new Date(year, monthIndex, day)`: JavaScript normalizes out-of-range
month and day values by carrying. -/
def jsMakeDate (y m0 d : Int) : JSDate :=
  let yAdj : Int := y + Int.ediv m0 12
  let mAdj : Int := Int.emod m0 12
  civilFromDays (daysFromCivil yAdj (mAdj + 1) 1 + (d - 1))

/-- `Date.prototype.toLocaleDateString` in the en-US locale: `M/D/YYYY`. -/
def JSDate.toLocaleDateString (d : JSDate) : Str :=
  renderNat (d.month + 1) ++ ['/'] ++ renderNat d.day ++ ['/'] ++ renderInt d.year

example : daysFromCivil 1970 1 1 = 0 := by decide
example : daysFromCivil 2000 3 1 = 11017 := by decide
example : civilFromDays 11017 = ⟨2000, 2, 1⟩ := by decide
example : jsMakeDate 2023 1 29 = ⟨2023, 2, 1⟩ := by decide
example : jsMakeDate 2024 1 29 = ⟨2024, 1, 29⟩ := by decide
example : jsMakeDate 2023 12 5 = ⟨2024, 0, 5⟩ := by decide
example : (⟨2018, 8, 1⟩ : JSDate).toLocaleDateString = "9/1/2018".toList := by decide

/-! ## Data model (date-validation/types.ts) -/

/-- `ValidationIssue.type`: 'critical' | 'warning' | 'suggestion'. -/
inductive IssueType
  | critical
  | warning
  | suggestion
deriving DecidableEq

/-- Issue/warning category: 'education' | 'work' | 'general'. -/
inductive Category
  | education
  | work
  | general
deriving DecidableEq

/-- enum DateFormat. -/
inductive DateFormat
  | MONTH_YEAR
  | YEAR_ONLY
  | FULL_DATE
  | PRESENT
  | CURRENT
deriving DecidableEq

structure ParsedDate where
  original : Str
  normalized : JSDate
  format : DateFormat
  isOngoing : Bool
  confidence : JsNum
deriving DecidableEq

structure ExtractedDate where
  text : Str
  startIndex : Nat
  endIndex : Nat
  parsedDate : Option ParsedDate
  context : Str
deriving DecidableEq

structure ValidationIssue where
  type : IssueType
  category : Category
  message : Str
  detectedDate : Str
  suggestedFix : Option Str
  confidence : JsNum
deriving DecidableEq

structure ValidationWarning where
  category : Category
  message : Str
  context : Str
deriving DecidableEq

structure DateSuggestion where
  originalDate : Str
  suggestedDate : Str
  reason : Str
  confidence : JsNum
deriving DecidableEq

structure EducationPeriod where
  institution : Str
  degree : Option Str
  startDate : Option JSDate
  endDate : Option JSDate
  isOngoing : Bool
  originalText : Str
  confidence : JsNum
deriving DecidableEq

structure WorkExperience where
  company : Str
  position : Str
  startDate : Option JSDate
  endDate : Option JSDate
  isOngoing : Bool
  originalText : Str
  confidence : JsNum
deriving DecidableEq

structure ValidationConfig where
  maxFutureEducationYears : Int
  maxFutureWorkMonths : Int
  enableTypoDetection : Bool
  confidenceThreshold : JsNum
  strictMode : Bool
deriving DecidableEq

structure ValidationContext where
  currentDate : JSDate
  educationPeriods : List EducationPeriod
  workExperience : List WorkExperience
  config : ValidationConfig
  resumeText : Str

structure DateValidationResult where
  isValid : Bool
  issues : List ValidationIssue
  warnings : List ValidationWarning
  suggestions : List DateSuggestion
deriving DecidableEq

/-! ## Constants (date-validation/constants.ts, config.ts) -/

def ONGOING_KEYWORDS : List Str :=
  ["present", "current", "ongoing", "now", "today", "till date", "to date",
   "continuing"].map String.toList

def EDUCATION_KEYWORDS : List Str :=
  ["university", "college", "school", "degree", "bachelor", "master", "phd",
   "doctorate", "diploma", "certificate", "graduation", "graduated",
   "education", "academic", "student"].map String.toList

def WORK_KEYWORDS : List Str :=
  ["company", "corporation", "inc", "ltd", "llc", "work", "job", "position",
   "role", "employment", "experience", "career", "professional", "intern",
   "internship", "volunteer"].map String.toList

def FORMAT_CONFIDENCE_EXACT_MATCH : JsNum := 1.0
def FORMAT_CONFIDENCE_PATTERN_MATCH : JsNum := 0.8

def DEFAULT_VALIDATION_CONFIG : ValidationConfig :=
  ⟨4, 3, true, 0.8, false⟩

/-- Month name lists from the `ResumeDateParser` class. -/
def monthNames : List Str :=
  ["january", "february", "march", "april", "may", "june", "july", "august",
   "september", "october", "november", "december"].map String.toList

def monthAbbreviations : List Str :=
  ["jan", "feb", "mar", "apr", "may", "jun", "jul", "aug", "sep", "oct",
   "nov", "dec"].map String.toList

/-! ## Explicit matchers for the source's regular expressions

Each of the source's regex literals is translated into a matcher that decides
a match anchored at the head of the remaining text (with the preceding
character supplied for word-boundary tests), following the regex's
alternation order and greedy/backtracking behavior; `firstMatchIdx` and
`scanText` then give `String.match` and global `RegExp.exec` loops. -/

/-- JavaScript `\w`. -/
def isWordChar (c : Char) : Bool := c.isAlpha || c.isDigit || c == '_'

/-- `\b` immediately before a word character: start of text or preceded by a
non-word character. -/
def boundaryBeforeOk (prev : Option Char) : Bool :=
  match prev with
  | none => true
  | some c => !isWordChar c

/-- `\b` immediately after a word character: end of text or followed by a
non-word character. -/
def boundaryAfterOk (l : Str) : Bool :=
  match l with
  | [] => true
  | c :: _ => !isWordChar c

/-- Case-insensitive prefix test against a lowercase pattern (regex `/i`). -/
def ciStartsWithL : Str → Str → Bool
  | [], _ => true
  | _ :: _, [] => false
  | p :: ps, c :: cs => p == c.toLower && ciStartsWithL ps cs

/-- Take exactly `k` leading digit characters. -/
def takeDigitsN : Nat → Str → Option (Str × Str)
  | 0, l => some ([], l)
  | _ + 1, [] => none
  | k + 1, c :: t =>
    if c.isDigit then (takeDigitsN k t).map (fun r => (c :: r.1, r.2)) else none

/-- The 24 alternatives of the month alternation `(Jan|…|Dec|January|…|December)`,
in the source's order. -/
def monthAlternatives : List Str := monthAbbreviations ++ monthNames

/-- One alternative of `\b(month)\s+(\d{4})\b`: the month name, then `\s+`,
then four digits, then a word boundary. Returns (length, month group, year). -/
def tryMonthAlt (l : Str) (name : Str) : Option (Nat × Str × Nat) :=
  if ciStartsWithL name l then
    let rest := l.drop name.length
    let ws := rest.takeWhile Char.isWhitespace
    if ws.isEmpty then none
    else
      match takeDigitsN 4 (rest.drop ws.length) with
      | some (ds, rest2) =>
        if boundaryAfterOk rest2 then
          some (name.length + ws.length + 4, l.take name.length, digitsVal ds)
        else none
      | none => none
  else none

/-- `/\b(Jan|…|December)\s+(\d{4})\b/i` anchored at the current position. -/
def matchMonthYearAt (prev : Option Char) (l : Str) : Option (Nat × Str × Nat) :=
  if boundaryBeforeOk prev then monthAlternatives.findSome? (tryMonthAlt l)
  else none

/-- `/\b(19|20)\d{2}\b/` anchored at the current position; returns
(length, year). -/
def matchYearOnlyAt (prev : Option Char) (l : Str) : Option (Nat × Nat) :=
  if boundaryBeforeOk prev then
    match l with
    | c1 :: c2 :: c3 :: c4 :: rest =>
      if ((c1 == '1' && c2 == '9') || (c1 == '2' && c2 == '0')) && c3.isDigit
          && c4.isDigit && boundaryAfterOk rest then
        some (4, digitsVal [c1, c2, c3, c4])
      else none
    | _ => none
  else none

/-- `/\b\d{4}\b/` anchored at the current position (used by
`replaceDateYear`). -/
def matchAnyYearAt (prev : Option Char) (l : Str) : Option (Nat × Nat) :=
  if boundaryBeforeOk prev then
    match l with
    | c1 :: c2 :: c3 :: c4 :: rest =>
      if c1.isDigit && c2.isDigit && c3.isDigit && c4.isDigit
          && boundaryAfterOk rest then
        some (4, digitsVal [c1, c2, c3, c4])
      else none
    | _ => none
  else none

/-- One backtracking branch of `\b(\d{1,2})/(\d{1,2})/(\d{4})\b` with fixed
month/day digit counts. Returns (length, month, day, year). -/
def tryFullDate (l : Str) (mLen dLen : Nat) : Option (Nat × Nat × Nat × Nat) :=
  match takeDigitsN mLen l with
  | some (ms, r1) =>
    match r1 with
    | '/' :: r2 =>
      match takeDigitsN dLen r2 with
      | some (ds, r3) =>
        match r3 with
        | '/' :: r4 =>
          match takeDigitsN 4 r4 with
          | some (ys, r5) =>
            if boundaryAfterOk r5 then
              some (mLen + 1 + dLen + 1 + 4, digitsVal ms, digitsVal ds, digitsVal ys)
            else none
          | none => none
        | _ => none
      | none => none
    | _ => none
  | none => none

/-- `/\b(\d{1,2})\/(\d{1,2})\/(\d{4})\b/` anchored at the current position,
with the regex's greedy backtracking order over the 1-or-2-digit groups. -/
def matchFullDateAt (prev : Option Char) (l : Str) : Option (Nat × Nat × Nat × Nat) :=
  if boundaryBeforeOk prev then
    (tryFullDate l 2 2).orElse fun _ =>
      (tryFullDate l 2 1).orElse fun _ =>
        (tryFullDate l 1 2).orElse fun _ => tryFullDate l 1 1
  else none

def presentAlternatives : List Str :=
  ["present", "current", "ongoing", "now", "today"].map String.toList

/-- `/\b(present|current|ongoing|now|today)\b/i` anchored at the current
position; returns the match length. -/
def matchPresentAt (prev : Option Char) (l : Str) : Option (Nat × Unit) :=
  if boundaryBeforeOk prev then
    (presentAlternatives.findSome? fun name =>
      if ciStartsWithL name l && boundaryAfterOk (l.drop name.length) then
        some (name.length, ())
      else none)
  else none

/-- `/(\d{4})\s*[-–—]\s*(\d{4}|present|current)/i` anchored at the current
position (no word boundaries in this pattern). Returns
(length, first year group, second group as matched text). -/
def matchDateRangeAt (_prev : Option Char) (l : Str) : Option (Nat × Str × Str) :=
  match takeDigitsN 4 l with
  | some (ys, rest) =>
    let ws1 := rest.takeWhile Char.isWhitespace
    match rest.drop ws1.length with
    | dash :: rest2 =>
      if dash == '-' || dash == '–' || dash == '—' then
        let ws2 := rest2.takeWhile Char.isWhitespace
        let rest3 := rest2.drop ws2.length
        let pre : Nat := 4 + ws1.length + 1 + ws2.length
        match takeDigitsN 4 rest3 with
        | some (es, _) => some (pre + 4, ys, es)
        | none =>
          if ciStartsWithL "present".toList rest3 then
            some (pre + 7, ys, rest3.take 7)
          else if ciStartsWithL "current".toList rest3 then
            some (pre + 7, ys, rest3.take 7)
          else none
      else none
    | [] => none
  | none => none

/-- `String.prototype.match` with a non-global regex: result of the matcher
at the leftmost matching position, with that position. -/
def firstMatchIdx (m : Option Char → Str → Option β) : Option Char → Str → Nat → Option (Nat × β)
  | prev, [], i => (m prev []).map (fun r => (i, r))
  | prev, c :: t, i =>
    match m prev (c :: t) with
    | some r => some (i, r)
    | none => firstMatchIdx m (some c) t (i + 1)

def firstMatch (m : Option Char → Str → Option β) (l : Str) : Option β :=
  (firstMatchIdx m none l 0).map Prod.snd

/-- The `while ((match = regex.exec(text)) !== null)` loop of the extractor:
repeated leftmost search, resuming after each match, stopping after the
201st processed match (the source's `matchCount > 200` guard). Emits
(start index, matcher result). -/
def scanAux (m : Option Char → Str → Option (Nat × β)) :
    Nat → Option Char → Str → Nat → Nat → List (Nat × Nat × β)
  | 0, _, _, _, _ => []
  | fuel + 1, prev, l, i, cnt =>
    match m prev l with
    | some (len, b) =>
      let cnt2 := cnt + 1
      if cnt2 > 200 then [(i, len, b)]
      else
        let consumed := l.take len
        let prev2 := match consumed.getLast? with
          | some c => some c
          | none => prev
        (i, len, b) :: scanAux m fuel prev2 (l.drop len) (i + len) cnt2
    | none =>
      match l with
      | [] => []
      | c :: t => scanAux m fuel (some c) t (i + 1) cnt

/-- Global scan of a pattern over the whole text: list of
(start index, match length, matcher result). -/
def scanText (m : Option Char → Str → Option (Nat × β)) (l : Str) : List (Nat × Nat × β) :=
  scanAux m (l.length + 1) none l 0 0

/-! ## ResumeDateParser (date-validation/parser.ts) -/

/-- `isOngoingIndicator`: the lowercased text contains one of the ongoing
keywords as a substring. -/
def isOngoingIndicator (text : Str) : Bool :=
  ONGOING_KEYWORDS.any fun keyword => containsL text (toLowerL keyword)

/-- `isValidYear`: between 1950 and ten years after the current year. -/
def isValidYear (now : JSDate) (year : Nat) : Bool :=
  1950 ≤ year && (year : Int) ≤ now.year + 10

/-- `isValidDate`: range checks plus the round-trip check through the
normalizing `Date` constructor (which handles leap years). -/
def isValidDate (now : JSDate) (month day year : Nat) : Bool :=
  if month < 1 || 12 < month then false
  else if day < 1 || 31 < day then false
  else if !isValidYear now year then false
  else
    let date := jsMakeDate year ((month : Int) - 1) day
    date.year == (year : Int) && date.month == month - 1 && date.day == day

/-- `parseMonthYear`: month-name + 4-digit-year. Returns
(normalized date, format, confidence) like the source's helper object. -/
def parseMonthYear (now : JSDate) (text : Str) : Option (JSDate × DateFormat × JsNum) :=
  match firstMatch matchMonthYearAt text with
  | some (_, grp, year) =>
    let monthStr := toLowerL grp
    let monthIndex :=
      match monthAbbreviations.findIdx? (· == monthStr) with
      | some i => some i
      | none => monthNames.findIdx? (· == monthStr)
    match monthIndex with
    | some mi =>
      if isValidYear now year then
        some (⟨year, mi, 1⟩, DateFormat.MONTH_YEAR, FORMAT_CONFIDENCE_EXACT_MATCH)
      else none
    | none => none
  | none => none

/-- `parseYearOnly`: a bare 4-digit year normalizes to January 1st. -/
def parseYearOnly (now : JSDate) (text : Str) : Option (JSDate × DateFormat × JsNum) :=
  match firstMatch matchYearOnlyAt text with
  | some (_, year) =>
    if isValidYear now year then
      some (⟨year, 0, 1⟩, DateFormat.YEAR_ONLY, FORMAT_CONFIDENCE_PATTERN_MATCH)
    else none
  | none => none

/-- `parseFullDate`: numeric `M/D/YYYY`. -/
def parseFullDate (now : JSDate) (text : Str) : Option (JSDate × DateFormat × JsNum) :=
  match firstMatch matchFullDateAt text with
  | some (_, month, day, year) =>
    if isValidDate now month day year then
      some (⟨year, month - 1, day⟩, DateFormat.FULL_DATE, FORMAT_CONFIDENCE_EXACT_MATCH)
    else none
  | none => none

/-- `parseDate`: ongoing keywords first, then the month-year, year-only and
full-date parsers in that order; `none` if nothing matches. -/
def parseDate (now : JSDate) (dateString : Str) : Option ParsedDate :=
  if dateString.isEmpty then none
  else if (trimL dateString).isEmpty then none
  else
    let trimmed := toLowerL (trimL dateString)
    if isOngoingIndicator trimmed then
      some ⟨dateString, now, DateFormat.PRESENT, true, FORMAT_CONFIDENCE_EXACT_MATCH⟩
    else
      match parseMonthYear now trimmed with
      | some (d, f, c) => some ⟨dateString, d, f, false, c⟩
      | none =>
        match parseYearOnly now trimmed with
        | some (d, f, c) => some ⟨dateString, d, f, false, c⟩
        | none =>
          match parseFullDate now trimmed with
          | some (d, f, c) => some ⟨dateString, d, f, false, c⟩
          | none => none

/-- The ±50-character context window around a match, trimmed. -/
def contextAround (text : Str) (startIndex endIndex : Nat) : Str :=
  trimL (substringL text (startIndex - 50) (min text.length (endIndex + 50)))

/-- Build the `ExtractedDate` for one non-range match. -/
def mkExtractedDate (now : JSDate) (text : Str) (m : Nat × Nat) : ExtractedDate :=
  let si := m.1
  let len := m.2
  let matchText := substringL text si (si + len)
  ⟨matchText, si, si + len, parseDate now matchText, contextAround text si (si + len)⟩

/-- `extractDateRange`: each side of a `YYYY - YYYY|present|current` range is
parsed independently and emitted as its own entry; the end entry's position
uses `fullMatch.indexOf(endPart)`. -/
def extractDateRange (now : JSDate) (text : Str) (m : Nat × Nat × Str × Str) :
    List ExtractedDate :=
  let si := m.1
  let len := m.2.1
  let startYear := m.2.2.1
  let endPart := m.2.2.2
  let fullMatch := substringL text si (si + len)
  let context := contextAround text si (si + len)
  let startEntries :=
    match parseDate now startYear with
    | some pd => [(⟨startYear, si, si + startYear.length, some pd, context⟩ : ExtractedDate)]
    | none => []
  let endStartIndex := si + (idxOfSub? fullMatch endPart).getD 0
  let endEntries :=
    match parseDate now endPart with
    | some pd =>
      [(⟨endPart, endStartIndex, endStartIndex + endPart.length, some pd, context⟩ : ExtractedDate)]
    | none => []
  startEntries ++ endEntries

/-- The `Array.prototype.filter` + `findIndex` idiom used for duplicate
removal (in `deduplicateAndSort` and `filterAndRankSuggestions`): keep an
element exactly when it is the first with its key. -/
def dedupeByKey {α κ : Type} [DecidableEq κ] (key : α → κ) (l : List α) : List α :=
  (l.enum.filter fun p => l.findIdx (fun x => decide (key x = key p.2)) == p.1).map Prod.snd

/-- Order used by `deduplicateAndSort`'s comparator. -/
def extractedLe (a b : ExtractedDate) : Prop := a.startIndex ≤ b.startIndex

instance : DecidableRel extractedLe := fun _ _ => Nat.decLe _ _

instance : IsTotal ExtractedDate extractedLe := ⟨fun a b => Nat.le_total a.startIndex b.startIndex⟩

instance : IsTrans ExtractedDate extractedLe := ⟨fun _ _ _ => Nat.le_trans⟩

/-- `deduplicateAndSort`: drop duplicates by (startIndex, text), then sort
ascending by startIndex (a stable sort, as in the JS runtime). -/
def deduplicateAndSort (extractedDates : List ExtractedDate) : List ExtractedDate :=
  (dedupeByKey (fun d => (d.startIndex, d.text)) extractedDates).insertionSort extractedLe

/-- `extractDatesFromText`: run the five patterns in their fixed order
(month-year, full date, year-only, present-indicator, date-range), collect
entries, then deduplicate and sort. -/
def extractDatesFromText (now : JSDate) (text : Str) : List ExtractedDate :=
  if text.isEmpty then []
  else if (trimL text).isEmpty then []
  else
    let monthYearEntries :=
      (scanText matchMonthYearAt text).map fun m => mkExtractedDate now text (m.1, m.2.1)
    let fullDateEntries :=
      (scanText matchFullDateAt text).map fun m => mkExtractedDate now text (m.1, m.2.1)
    let yearOnlyEntries :=
      (scanText matchYearOnlyAt text).map fun m => mkExtractedDate now text (m.1, m.2.1)
    let presentEntries :=
      (scanText matchPresentAt text).map fun m => mkExtractedDate now text (m.1, m.2.1)
    let rangeEntries :=
      (scanText matchDateRangeAt text).flatMap fun m =>
        extractDateRange now text (m.1, m.2.1, m.2.2)
    deduplicateAndSort
      (monthYearEntries ++ fullDateEntries ++ yearOnlyEntries ++ presentEntries ++ rangeEntries)

example :
    parseDate ⟨2026, 9, 11⟩ "September 2018".toList =
      some ⟨"September 2018".toList, ⟨2018, 8, 1⟩, DateFormat.MONTH_YEAR, false,
        FORMAT_CONFIDENCE_EXACT_MATCH⟩ := by decide

example :
    parseDate ⟨2026, 9, 11⟩ "2018".toList =
      some ⟨"2018".toList, ⟨2018, 0, 1⟩, DateFormat.YEAR_ONLY, false,
        FORMAT_CONFIDENCE_PATTERN_MATCH⟩ := by decide

example :
    parseDate ⟨2026, 9, 11⟩ " Present ".toList =
      some ⟨" Present ".toList, ⟨2026, 9, 11⟩, DateFormat.PRESENT, true,
        FORMAT_CONFIDENCE_EXACT_MATCH⟩ := by decide

example :
    parseDate ⟨2026, 9, 11⟩ "01/15/2023".toList =
      some ⟨"01/15/2023".toList, ⟨2023, 0, 1⟩, DateFormat.YEAR_ONLY, false,
        FORMAT_CONFIDENCE_PATTERN_MATCH⟩ := by decide

example : parseDate ⟨2026, 9, 11⟩ "2050".toList = none := by decide

example :
    (extractDatesFromText ⟨2026, 9, 11⟩ "2019 - Present".toList).map
        (fun d => (d.text, d.startIndex, d.parsedDate.map (·.format))) =
      [("2019".toList, 0, some DateFormat.YEAR_ONLY),
       ("Present".toList, 7, some DateFormat.PRESENT)] := by decide

/-! ## Section segmentation (service.ts) -/

def educationHeaders : List Str :=
  ["education", "academic background", "academic qualifications",
   "educational background", "qualifications", "degrees"].map String.toList

def workHeaders : List Str :=
  ["experience", "work experience", "professional experience", "employment",
   "career", "work history", "professional background"].map String.toList

def nonEducationHeaders : List Str :=
  ["experience", "work", "skills", "projects", "certifications",
   "achievements", "awards", "publications", "references"].map String.toList

def nonWorkHeaders : List Str :=
  ["education", "skills", "projects", "certifications", "achievements",
   "awards", "publications", "references"].map String.toList

def isEducationSectionHeader (line : Str) : Bool :=
  educationHeaders.any fun header => containsL line header

def isWorkSectionHeader (line : Str) : Bool :=
  workHeaders.any fun header => containsL line header

def isNonEducationSectionHeader (line : Str) : Bool :=
  nonEducationHeaders.any fun header => containsL line header

def isNonWorkSectionHeader (line : Str) : Bool :=
  nonWorkHeaders.any fun header => containsL line header

def containsEducationKeywords (line : Str) : Bool :=
  EDUCATION_KEYWORDS.any fun keyword => containsL line keyword

def containsWorkKeywords (line : Str) : Bool :=
  WORK_KEYWORDS.any fun keyword => containsL line keyword

/-- `getContextLines(lines, index, contextSize)`. -/
def getContextLines (lines : List Str) (index contextSize : Nat) : List Str :=
  let s := index - contextSize
  let e := min lines.length (index + contextSize + 1)
  (lines.drop s).take (e - s)

/-- The line-by-line state machine shared (by copy) between
`extractEducationSections` and `extractWorkSections`: arguments are the raw
line array (for context slices), the index, the remaining lines, the
accumulated current section, the in-section and section-started flags, and
the sections collected so far. -/
def sectionsLoop (lines : List Str) (isHdr isOtherHdr hasKw : Str → Bool) :
    Nat → List Str → Str → Bool → Bool → List Str → List Str
  | _, [], cur, inSec, _, acc =>
    if inSec && !(trimL cur).isEmpty then acc ++ [trimL cur] else acc
  | i, raw :: rest, cur, inSec, started, acc =>
    let line := trimL raw
    let lower := toLowerL line
    if isHdr lower then
      let acc2 := if started && !(trimL cur).isEmpty then acc ++ [trimL cur] else acc
      sectionsLoop lines isHdr isOtherHdr hasKw (i + 1) rest (line ++ ['\n']) true true acc2
    else if isOtherHdr lower && inSec then
      let acc2 := if !(trimL cur).isEmpty then acc ++ [trimL cur] else acc
      sectionsLoop lines isHdr isOtherHdr hasKw (i + 1) rest [] false false acc2
    else if inSec then
      sectionsLoop lines isHdr isOtherHdr hasKw (i + 1) rest (cur ++ line ++ ['\n']) inSec started acc
    else if !started && hasKw lower then
      sectionsLoop lines isHdr isOtherHdr hasKw (i + 1) rest cur inSec started
        (acc ++ [joinLines (getContextLines lines i 2)])
    else
      sectionsLoop lines isHdr isOtherHdr hasKw (i + 1) rest cur inSec started acc

def extractEducationSections (text : Str) : List Str :=
  sectionsLoop (splitLines text) isEducationSectionHeader isNonEducationSectionHeader
    containsEducationKeywords 0 (splitLines text) [] false false []

def extractWorkSections (text : Str) : List Str :=
  sectionsLoop (splitLines text) isWorkSectionHeader isNonWorkSectionHeader
    containsWorkKeywords 0 (splitLines text) [] false false []

/-! ## Period building (service.ts) -/

/-- `/\d{4}|present|current/i` tested anywhere in the line. -/
def hasDateToken : Str → Bool
  | [] => false
  | l@(_ :: t) =>
    (match l with
     | a :: b :: c :: d :: _ => a.isDigit && b.isDigit && c.isDigit && d.isDigit
     | _ => false)
    || ciStartsWithL "present".toList l || ciStartsWithL "current".toList l
    || hasDateToken t

def isDateLine (line : Str) : Bool :=
  hasDateToken line && (trimL line).length < 50

def degreeOnlyKeywords : List Str :=
  ["bachelor", "master", "phd", "b.s.", "b.a.", "m.s.", "m.a."].map String.toList

def isDegreeOnlyLine (line : Str) : Bool :=
  (degreeOnlyKeywords.any fun k => containsL (toLowerL line) k) && (trimL line).length < 100

def positionOnlyKeywords : List Str :=
  ["manager", "director", "engineer", "developer"].map String.toList

def isPositionOnlyLine (line : Str) : Bool :=
  (positionOnlyKeywords.any fun k => containsL (toLowerL line) k) && (trimL line).length < 50

def companyIndicators : List Str :=
  ["inc", "corp", "ltd", "llc", "company", "corporation"].map String.toList

def containsCompanyIndicators (line : Str) : Bool :=
  companyIndicators.any fun k => containsL (toLowerL line) k

def institutionKeywords : List Str :=
  ["university", "college", "school", "institute"].map String.toList

/-- `extractInstitution`. -/
def extractInstitution (lines : List Str) : Option Str :=
  let direct := lines.find? fun line =>
    !(isDateLine line || isDegreeOnlyLine line)
      && institutionKeywords.any fun k => containsL (toLowerL line) k
  match direct with
  | some line => some (trimL line)
  | none =>
    (lines.find? fun line =>
      5 < (trimL line).length && !isDateLine line && !isDegreeOnlyLine line).map trimL

def degreeKeywords : List Str :=
  ["bachelor", "master", "phd", "doctorate", "diploma", "certificate", "b.s.",
   "b.a.", "m.s.", "m.a.", "ph.d.", "mba", "degree"].map String.toList

/-- `extractDegree`. -/
def extractDegree (lines : List Str) : Option Str :=
  (lines.find? fun line => degreeKeywords.any fun k => containsL (toLowerL line) k).map trimL

def companyNameKeywords : List Str :=
  ["inc", "corp", "ltd", "llc", "company"].map String.toList

/-- `extractCompany`. -/
def extractCompany (lines : List Str) : Option Str :=
  let direct := lines.find? fun line =>
    !(isDateLine line || isPositionOnlyLine line)
      && companyNameKeywords.any fun k => containsL (toLowerL line) k
  match direct with
  | some line => some (trimL line)
  | none =>
    (lines.find? fun line =>
      3 < (trimL line).length && !isDateLine line && !isPositionOnlyLine line).map trimL

def positionKeywords : List Str :=
  ["manager", "director", "engineer", "developer", "analyst", "consultant",
   "intern", "associate", "specialist", "coordinator", "assistant",
   "lead"].map String.toList

/-- `extractPosition`. -/
def extractPosition (lines : List Str) : Option Str :=
  let direct := lines.find? fun line =>
    positionKeywords.any fun k => containsL (toLowerL line) k
  match direct with
  | some line => some (trimL line)
  | none =>
    (lines.find? fun line =>
      5 < (trimL line).length && (trimL line).length < 50 && !isDateLine line
        && !containsCompanyIndicators line).map trimL

/-- Ascending order on normalized times, used by `determineDateRange`. -/
def parsedLe (a b : ParsedDate) : Prop := a.normalized.getTime ≤ b.normalized.getTime

instance : DecidableRel parsedLe := fun _ _ => Int.decLe _ _

/-- `determineDateRange`: ongoing flag from any ongoing entry; the remaining
parsed dates sorted ascending give start/end (one date alone is an end date
unless the period is ongoing; of three or more dates only the first and last
are kept). -/
def determineDateRange (extractedDates : List ExtractedDate) :
    Option JSDate × Option JSDate × Bool :=
  if extractedDates.isEmpty then (none, none, false)
  else
    let ongoingDate := extractedDates.find? fun d =>
      match d.parsedDate with
      | some p => p.isOngoing
      | none => false
    let isOngoing := ongoingDate.isSome
    let actualDates :=
      ((extractedDates.filter fun d =>
          match d.parsedDate with
          | some p => !p.isOngoing
          | none => false).filterMap (·.parsedDate)).insertionSort parsedLe
    match actualDates with
    | [] => (none, none, isOngoing)
    | [d] =>
      if isOngoing then (some d.normalized, none, isOngoing)
      else (none, some d.normalized, isOngoing)
    | d :: rest =>
      (some d.normalized,
       if isOngoing then none else some (((d :: rest).getLast?.getD d).normalized),
       isOngoing)

/-- Confidence of a parsed entry, `date.parsedDate?.confidence || 0`. -/
def entryConfidence (d : ExtractedDate) : JsNum :=
  match d.parsedDate with
  | some p => p.confidence
  | none => 0

/-- `calculateEducationConfidence`. -/
def calculateEducationConfidence (institution degree : Option Str)
    (extractedDates : List ExtractedDate) : JsNum :=
  let c0 : JsNum := 0.5
  let c1 :=
    match institution with
    | some inst =>
      let a := c0 + 0.2
      if containsL (toLowerL inst) "university".toList
          || containsL (toLowerL inst) "college".toList then a + 0.1
      else a
    | none => c0
  let c2 :=
    match degree with
    | some _ => c1 + 0.2
    | none => c1
  let avgDateConfidence :=
    (extractedDates.foldl (fun sum d => sum + entryConfidence d) 0) /
      jsn extractedDates.length
  jsMin (c2 + avgDateConfidence * 0.1) 1.0

/-- `calculateWorkConfidence`. -/
def calculateWorkConfidence (company position : Option Str)
    (extractedDates : List ExtractedDate) : JsNum :=
  let c0 : JsNum := 0.5
  let c1 :=
    match company with
    | some comp =>
      let a := c0 + 0.2
      if containsCompanyIndicators comp then a + 0.1 else a
    | none => c0
  let c2 :=
    match position with
    | some _ => c1 + 0.2
    | none => c1
  let avgDateConfidence :=
    (extractedDates.foldl (fun sum d => sum + entryConfidence d) 0) /
      jsn extractedDates.length
  jsMin (c2 + avgDateConfidence * 0.1) 1.0

/-- `parseEducationSection`: a section with no extracted dates yields no
period. -/
def parseEducationSection (now : JSDate) (sectionText : Str) : Option EducationPeriod :=
  let extractedDates := extractDatesFromText now sectionText
  if extractedDates.isEmpty then none
  else
    let lines := ((splitLines sectionText).map trimL).filter fun l => !l.isEmpty
    let institution := extractInstitution lines
    let degree := extractDegree lines
    let r := determineDateRange extractedDates
    let confidence := calculateEducationConfidence institution degree extractedDates
    some ⟨institution.getD "Unknown Institution".toList, degree, r.1, r.2.1, r.2.2,
      sectionText, confidence⟩

/-- `parseWorkSection`. -/
def parseWorkSection (now : JSDate) (sectionText : Str) : Option WorkExperience :=
  let extractedDates := extractDatesFromText now sectionText
  if extractedDates.isEmpty then none
  else
    let lines := ((splitLines sectionText).map trimL).filter fun l => !l.isEmpty
    let company := extractCompany lines
    let position := extractPosition lines
    let r := determineDateRange extractedDates
    let confidence := calculateWorkConfidence company position extractedDates
    some ⟨company.getD "Unknown Company".toList, position.getD "Unknown Position".toList,
      r.1, r.2.1, r.2.2, sectionText, confidence⟩

/-- `parseEducationDates`. -/
def parseEducationDates (now : JSDate) (text : Str) : List EducationPeriod :=
  if text.isEmpty then []
  else if (trimL text).isEmpty then []
  else (extractEducationSections text).filterMap (parseEducationSection now)

/-- `parseWorkExperience`. -/
def parseWorkExperience (now : JSDate) (text : Str) : List WorkExperience :=
  if text.isEmpty then []
  else if (trimL text).isEmpty then []
  else (extractWorkSections text).filterMap (parseWorkSection now)

/-! ## Timeline validators (service.ts) -/

/-- Shorthand for string literals as character lists. -/
def sL (s : String) : Str := s.toList

def msPerYearQ : JsNum := (1000 : JsNum) * 60 * 60 * 24 * 365.25
def msPerMonthQ : JsNum := (1000 : JsNum) * 60 * 60 * 24 * 30.44
def msPerDayQ : JsNum := (1000 : JsNum) * 60 * 60 * 24

/-- `date?.toLocaleDateString() || fallback`. -/
def optDateStr (d : Option JSDate) (fallback : Str) : Str :=
  match d with
  | some x => x.toLocaleDateString
  | none => fallback

/-- `period.endDate?.getTime() || Date.now()`: note the JavaScript `||`
falls back to the current time also when the end date is exactly the epoch
(time 0). -/
def endTimeOrNow (endDate : Option JSDate) (now : JSDate) : Int :=
  match endDate with
  | some e => if e.getTime == 0 then now.getTime else e.getTime
  | none => now.getTime

/-- Issues raised for a single education period, in the source's order. -/
def eduPeriodIssues (now : JSDate) (cfg : ValidationConfig) (period : EducationPeriod) :
    List ValidationIssue :=
  let futureEnd :=
    match period.endDate with
    | some e =>
      if !period.isOngoing then
        let yearsDifference := jsn (e.getTime - now.getTime) / msPerYearQ
        if yearsDifference > jsn cfg.maxFutureEducationYears then
          [⟨IssueType.critical, Category.education,
            sL "Graduation date " ++ renderInt e.year ++ sL " is more than "
              ++ renderInt cfg.maxFutureEducationYears
              ++ sL " years in the future, which seems unrealistic.",
            e.toLocaleDateString,
            some (sL "Consider checking if this should be " ++ renderInt (e.year - 10)
              ++ sL " instead."),
            0.9⟩]
        else if yearsDifference > 2 then
          [⟨IssueType.warning, Category.education,
            sL "Graduation date " ++ renderInt e.year ++ sL " is "
              ++ renderInt yearsDifference.jsCeil
              ++ sL " years in the future. Please verify this is correct.",
            e.toLocaleDateString, none, 0.7⟩]
        else []
      else []
    | none => []
  let futureStart :=
    match period.startDate with
    | some s =>
      let monthsDifference := jsn (s.getTime - now.getTime) / msPerMonthQ
      if monthsDifference > 3 then
        [⟨IssueType.critical, Category.education,
          sL "Education start date " ++ s.toLocaleDateString
            ++ sL " is more than 3 months in the future.",
          s.toLocaleDateString,
          some (sL "Verify this date is correct or consider if it should be "
            ++ renderInt (s.year - 1) ++ sL "."),
          0.85⟩]
      else []
    | none => []
  let ordering :=
    match period.startDate, period.endDate with
    | some s, some e =>
      if !period.isOngoing && e.getTime ≤ s.getTime then
        [⟨IssueType.critical, Category.education,
          sL "Education start date (" ++ s.toLocaleDateString
            ++ sL ") is after or same as end date (" ++ e.toLocaleDateString ++ sL ").",
          s.toLocaleDateString ++ sL " - " ++ e.toLocaleDateString,
          some (sL "Please check and correct the date order."), 0.95⟩]
      else []
    | _, _ => []
  let duration :=
    match period.startDate, period.endDate with
    | some s, some e =>
      if !period.isOngoing then
        let durationYears := jsn (e.getTime - s.getTime) / msPerYearQ
        if durationYears > 10 then
          [⟨IssueType.warning, Category.education,
            sL "Education period of " ++ renderInt durationYears.jsCeil
              ++ sL " years seems unusually long for " ++ period.institution ++ sL ".",
            s.toLocaleDateString ++ sL " - " ++ e.toLocaleDateString, none, 0.6⟩]
        else if durationYears < 0.5
            && (match period.degree with
                | some dg => containsL (toLowerL dg) (sL "degree")
                | none => false) then
          [⟨IssueType.suggestion, Category.education,
            sL "Education period of " ++ renderInt (durationYears * 12).jsCeil
              ++ sL " months seems short for a degree program.",
            s.toLocaleDateString ++ sL " - " ++ e.toLocaleDateString, none, 0.5⟩]
        else []
      else []
    | _, _ => []
  let ongoing :=
    match period.startDate with
    | some s =>
      if period.isOngoing then
        let yearsSinceStart := jsn (now.getTime - s.getTime) / msPerYearQ
        if yearsSinceStart > 8 then
          [⟨IssueType.warning, Category.education,
            sL "Ongoing education started " ++ renderInt yearsSinceStart.jsCeil
              ++ sL " years ago. Please verify this is still current.",
            s.toLocaleDateString, none, 0.7⟩]
        else []
      else []
    | none => []
  futureEnd ++ futureStart ++ ordering ++ duration ++ ongoing

/-- `hasEducationOverlap`. -/
def hasEducationOverlap (now : JSDate) (p1 p2 : EducationPeriod) : Bool :=
  match p1.startDate, p2.startDate with
  | some s1, some s2 =>
    let p1End := endTimeOrNow p1.endDate now
    let p2End := endTimeOrNow p2.endDate now
    s1.getTime < p2End && s2.getTime < p1End
  | _, _ => false

/-- `isValidEducationOverlap`. -/
def isValidEducationOverlap (p1 p2 : EducationPeriod) : Bool :=
  if toLowerL p1.institution == toLowerL p2.institution then true
  else
    let degree1 := match p1.degree with | some d => toLowerL d | none => []
    let degree2 := match p2.degree with | some d => toLowerL d | none => []
    if containsL degree1 (sL "certificate") || containsL degree1 (sL "diploma")
        || containsL degree2 (sL "certificate") || containsL degree2 (sL "diploma") then
      true
    else
      match p1.startDate, p1.endDate, p2.startDate, p2.endDate with
      | some s1, some e1, some s2, some e2 =>
        let overlapStart := max s1.getTime s2.getTime
        let overlapEnd := min e1.getTime e2.getTime
        let overlapMonths := jsn (overlapEnd - overlapStart) / msPerMonthQ
        decide (overlapMonths < 6)
      | _, _, _, _ => false

/-- The education pairwise loop (each `i` against every later `j`). -/
def eduPairIssues (now : JSDate) : List EducationPeriod → List ValidationIssue
  | [] => []
  | p1 :: rest =>
    (rest.filterMap fun p2 =>
      if hasEducationOverlap now p1 p2 && !isValidEducationOverlap p1 p2 then
        some ⟨IssueType.suggestion, Category.education,
          sL "Overlapping education periods detected: " ++ p1.institution ++ sL " and "
            ++ p2.institution ++ sL ". Please verify if this is correct.",
          optDateStr p1.startDate (sL "Unknown") ++ sL " - "
            ++ optDateStr p1.endDate (sL "Present") ++ sL " overlaps with "
            ++ optDateStr p2.startDate (sL "Unknown") ++ sL " - "
            ++ optDateStr p2.endDate (sL "Present"),
          none, 0.6⟩
      else none)
    ++ eduPairIssues now rest

/-- `validateEducationTimeline`. -/
def validateEducationTimeline (now : JSDate) (cfg : ValidationConfig)
    (education : List EducationPeriod) : List ValidationIssue :=
  education.flatMap (eduPeriodIssues now cfg) ++ eduPairIssues now education

/-- Issues raised for a single work experience, in the source's order. -/
def workPeriodIssues (now : JSDate) (cfg : ValidationConfig) (experience : WorkExperience) :
    List ValidationIssue :=
  let futureEnd :=
    match experience.endDate with
    | some e =>
      if !experience.isOngoing then
        let monthsDifference := jsn (e.getTime - now.getTime) / msPerMonthQ
        if monthsDifference > jsn cfg.maxFutureWorkMonths then
          [⟨IssueType.critical, Category.work,
            sL "Work end date " ++ e.toLocaleDateString ++ sL " is more than "
              ++ renderInt cfg.maxFutureWorkMonths ++ sL " months in the future.",
            e.toLocaleDateString,
            some (sL "Consider checking if this should be " ++ renderInt (e.year - 1)
              ++ sL " or if this position is ongoing."),
            0.9⟩]
        else if monthsDifference > 1 then
          [⟨IssueType.warning, Category.work,
            sL "Work end date " ++ e.toLocaleDateString ++ sL " is "
              ++ renderInt monthsDifference.jsCeil
              ++ sL " months in the future. Please verify this is correct.",
            e.toLocaleDateString, none, 0.7⟩]
        else []
      else []
    | none => []
  let futureStart :=
    match experience.startDate with
    | some s =>
      let monthsDifference := jsn (s.getTime - now.getTime) / msPerMonthQ
      if monthsDifference > jsn cfg.maxFutureWorkMonths then
        [⟨IssueType.critical, Category.work,
          sL "Work start date " ++ s.toLocaleDateString ++ sL " is more than "
            ++ renderInt cfg.maxFutureWorkMonths ++ sL " months in the future.",
          s.toLocaleDateString,
          some (sL "Verify this date is correct or consider if it should be "
            ++ renderInt (s.year - 1) ++ sL "."),
          0.85⟩]
      else []
    | none => []
  let ordering :=
    match experience.startDate, experience.endDate with
    | some s, some e =>
      if !experience.isOngoing && e.getTime ≤ s.getTime then
        [⟨IssueType.critical, Category.work,
          sL "Work start date (" ++ s.toLocaleDateString
            ++ sL ") is after or same as end date (" ++ e.toLocaleDateString
            ++ sL ") at " ++ experience.company ++ sL ".",
          s.toLocaleDateString ++ sL " - " ++ e.toLocaleDateString,
          some (sL "Please check and correct the date order."), 0.95⟩]
      else []
    | _, _ => []
  let duration :=
    match experience.startDate, experience.endDate with
    | some s, some e =>
      if !experience.isOngoing then
        let durationDays := jsn (e.getTime - s.getTime) / msPerDayQ
        if durationDays < 1 then
          [⟨IssueType.critical, Category.work,
            sL "Work period at " ++ experience.company
              ++ sL " appears to be less than one day.",
            s.toLocaleDateString ++ sL " - " ++ e.toLocaleDateString,
            some (sL "Please verify the dates are correct."), 0.9⟩]
        else if durationDays < 7 then
          [⟨IssueType.warning, Category.work,
            sL "Work period at " ++ experience.company ++ sL " is very short ("
              ++ renderInt durationDays.jsCeil ++ sL " days).",
            s.toLocaleDateString ++ sL " - " ++ e.toLocaleDateString, none, 0.7⟩]
        else []
      else []
    | _, _ => []
  let ongoing :=
    match experience.startDate with
    | some s =>
      if experience.isOngoing then
        let yearsSinceStart := jsn (now.getTime - s.getTime) / msPerYearQ
        if yearsSinceStart > 15 then
          [⟨IssueType.suggestion, Category.work,
            sL "Current position at " ++ experience.company ++ sL " started "
              ++ renderInt yearsSinceStart.jsCeil
              ++ sL " years ago. Consider if this is still accurate.",
            s.toLocaleDateString, none, 0.6⟩]
        else []
      else []
    | none => []
  futureEnd ++ futureStart ++ ordering ++ duration ++ ongoing

/-- `hasWorkOverlap`. -/
def hasWorkOverlap (now : JSDate) (w1 w2 : WorkExperience) : Bool :=
  match w1.startDate, w2.startDate with
  | some s1, some s2 =>
    let w1End := endTimeOrNow w1.endDate now
    let w2End := endTimeOrNow w2.endDate now
    s1.getTime < w2End && s2.getTime < w1End
  | _, _ => false

def validOverlapKeywords : List Str :=
  ["part-time", "freelance", "consultant", "contractor", "intern", "volunteer",
   "seasonal", "temporary", "project-based", "remote"].map String.toList

def industryKeywords : List Str :=
  ["teaching", "education", "consulting", "research", "writing", "coaching",
   "training", "speaking", "advisory"].map String.toList

/-- `isValidWorkOverlap`. -/
def isValidWorkOverlap (w1 w2 : WorkExperience) : Bool :=
  let position1 := toLowerL w1.position
  let position2 := toLowerL w2.position
  let company1 := toLowerL w1.company
  let company2 := toLowerL w2.company
  let hasValidKeywords := validOverlapKeywords.any fun keyword =>
    containsL position1 keyword || containsL position2 keyword
      || containsL company1 keyword || containsL company2 keyword
  if hasValidKeywords then true
  else
    let shortOverlap :=
      match w1.startDate, w1.endDate, w2.startDate, w2.endDate with
      | some s1, some e1, some s2, some e2 =>
        let overlapStart := max s1.getTime s2.getTime
        let overlapEnd := min e1.getTime e2.getTime
        let overlapMonths := jsn (overlapEnd - overlapStart) / msPerMonthQ
        decide (overlapMonths < 3)
      | _, _, _, _ => false
    if shortOverlap then true
    else
      industryKeywords.any fun keyword =>
        (containsL position1 keyword && !containsL position2 keyword)
          || (!containsL position1 keyword && containsL position2 keyword)

/-- Sort order used by `validateWorkTimeline`'s comparator, which returns 0
when either start date is missing. -/
def workSortLe (a b : WorkExperience) : Prop :=
  match a.startDate, b.startDate with
  | some x, some y => x.getTime ≤ y.getTime
  | _, _ => True

instance : DecidableRel workSortLe := fun a b => by
  unfold workSortLe
  cases a.startDate <;> cases b.startDate <;> exact inferInstance

/-- The work pairwise-overlap and consecutive-gap loop over the sorted list. -/
def workPairIssues (now : JSDate) : List WorkExperience → List ValidationIssue
  | [] => []
  | w1 :: rest =>
    (rest.filterMap fun w2 =>
      if hasWorkOverlap now w1 w2 && !isValidWorkOverlap w1 w2 then
        some ⟨IssueType.warning, Category.work,
          sL "Overlapping work periods detected: " ++ w1.company ++ sL " and "
            ++ w2.company ++ sL ". Please verify if this is correct.",
          optDateStr w1.startDate (sL "Unknown") ++ sL " - "
            ++ optDateStr w1.endDate (sL "Present") ++ sL " overlaps with "
            ++ optDateStr w2.startDate (sL "Unknown") ++ sL " - "
            ++ optDateStr w2.endDate (sL "Present"),
          none, 0.7⟩
      else none)
    ++ (match rest with
        | w2 :: _ =>
          match w1.endDate, w2.startDate with
          | some e, some s =>
            if !w1.isOngoing then
              let gapMonths := jsn (s.getTime - e.getTime) / msPerMonthQ
              if gapMonths > 12 then
                [⟨IssueType.suggestion, Category.work,
                  sL "Gap of " ++ renderInt gapMonths.jsCeil ++ sL " months between "
                    ++ w1.company ++ sL " and " ++ w2.company
                    ++ sL ". Consider explaining significant employment gaps.",
                  e.toLocaleDateString ++ sL " to " ++ s.toLocaleDateString, none, 0.5⟩]
              else []
            else []
          | _, _ => []
        | [] => [])
    ++ workPairIssues now rest

/-- `validateWorkTimeline`. -/
def validateWorkTimeline (now : JSDate) (cfg : ValidationConfig)
    (work : List WorkExperience) : List ValidationIssue :=
  work.flatMap (workPeriodIssues now cfg)
    ++ workPairIssues now (work.insertionSort workSortLe)

/-! ## Configurable validation rules (service.ts getValidationRules) -/

structure ValidationRule where
  name : Str
  category : Category
  severity : IssueType
  condition : ValidationContext → Bool
  message : ValidationContext → Str
  suggestion : Option (ValidationContext → Option Str)

/-- All start/end dates of all periods, education first. -/
def allDatesOf (ctx : ValidationContext) : List JSDate :=
  ctx.educationPeriods.flatMap
      (fun p => [p.startDate, p.endDate].filterMap id)
    ++ ctx.workExperience.flatMap (fun w => [w.startDate, w.endDate].filterMap id)

/-- `findAncientDate`. -/
def findAncientDate (ctx : ValidationContext) : Option JSDate :=
  (allDatesOf ctx).find? fun d => d.year < 1980

/-- `findImpossibleFutureDate` (the limit is ten years from now). -/
def findImpossibleFutureDate (now : JSDate) (ctx : ValidationContext) : Option JSDate :=
  let futureLimit := jsMakeDate (now.year + 10) now.month now.day
  (allDatesOf ctx).find? fun d => futureLimit.getTime < d.getTime

/-- Gap of more than two years between some pair of consecutive (sorted)
work entries, as in the career-progression rule. -/
def hasCareerGap : List WorkExperience → Bool
  | a :: b :: t =>
    (match a.endDate, b.startDate with
     | some e, some s => decide ((jsn (s.getTime - e.getTime) / msPerYearQ) > 2)
     | _, _ => false)
    || hasCareerGap (b :: t)
  | _ => false

/-- Descending order on end dates, used by the education-work-consistency
rule over periods that all have an end date. -/
def eduEndGe (a b : EducationPeriod) : Prop :=
  match a.endDate, b.endDate with
  | some x, some y => y.getTime ≤ x.getTime
  | _, _ => True

instance : DecidableRel eduEndGe := fun a b => by
  unfold eduEndGe
  cases a.endDate <;> cases b.endDate <;> exact inferInstance

def getValidationRules (now : JSDate) : List ValidationRule :=
  [⟨sL "ancient-dates", Category.general, IssueType.warning,
    fun ctx => (allDatesOf ctx).any fun d => d.year < 1980,
    fun ctx =>
      sL "Date " ++ (match findAncientDate ctx with
        | some d => renderInt d.year
        | none => sL "undefined")
        ++ sL " seems unusually old. Please verify this is correct.",
    some fun ctx =>
      match findAncientDate ctx with
      | some d => some (sL "Consider if this should be " ++ renderInt (d.year + 20)
          ++ sL " instead.")
      | none => none⟩,
   ⟨sL "impossible-future-dates", Category.general, IssueType.critical,
    fun ctx =>
      let futureLimit := jsMakeDate (now.year + 10) now.month now.day
      (allDatesOf ctx).any fun d => futureLimit.getTime < d.getTime,
    fun ctx =>
      sL "Date " ++ (match findImpossibleFutureDate now ctx with
        | some d => renderInt d.year
        | none => sL "undefined")
        ++ sL " is too far in the future to be realistic.",
    some fun ctx =>
      match findImpossibleFutureDate now ctx with
      | some d => some (sL "This might be a typo. Consider if it should be "
          ++ renderInt (d.year - 10) ++ sL ".")
      | none => none⟩,
   ⟨sL "career-progression", Category.work, IssueType.suggestion,
    fun ctx =>
      if ctx.workExperience.length < 2 then false
      else
        hasCareerGap
          ((ctx.workExperience.filter fun w => w.startDate.isSome).insertionSort workSortLe),
    fun _ => sL "Consider explaining any significant gaps in employment history.",
    some fun _ =>
      some (sL "Add brief explanations for employment gaps (education, travel, family, etc.)")⟩,
   ⟨sL "education-work-consistency", Category.general, IssueType.warning,
    fun ctx =>
      let latestEducation :=
        ((ctx.educationPeriods.filter fun e =>
            e.endDate.isSome && !e.isOngoing).insertionSort eduEndGe).head?
      let earliestWork :=
        ((ctx.workExperience.filter fun w => w.startDate.isSome).insertionSort
          workSortLe).head?
      match latestEducation, earliestWork with
      | some le, some ew =>
        match ew.startDate, le.endDate with
        | some s, some e => decide (s.getTime < e.getTime)
        | _, _ => false
      | _, _ => false,
    fun _ =>
      sL "Work experience appears to start before education completion. Please verify timeline consistency.",
    some fun _ =>
      some (sL "Check if work was part-time during education or if dates need correction.")⟩]

/-- `extractRelevantDate`. -/
def extractRelevantDate (ctx : ValidationContext) (rule : ValidationRule) : Str :=
  match rule.category with
  | Category.education =>
    let d := match ctx.educationPeriods.head? with
      | some p => match p.endDate with
        | some e => some e
        | none => p.startDate
      | none => none
    optDateStr d (sL "Unknown")
  | Category.work =>
    let d := match ctx.workExperience.head? with
      | some w => match w.endDate with
        | some e => some e
        | none => w.startDate
      | none => none
    optDateStr d (sL "Unknown")
  | Category.general => sL "Multiple dates"

/-- `calculateRuleConfidence`. -/
def calculateRuleConfidence (rule : ValidationRule) (ctx : ValidationContext) : JsNum :=
  let c0 : JsNum := 0.7
  let hasGoodEducationData := ctx.educationPeriods.any fun p => (0.8 : JsNum) < p.confidence
  let hasGoodWorkData := ctx.workExperience.any fun w => (0.8 : JsNum) < w.confidence
  let c1 := if rule.category == Category.education && hasGoodEducationData then c0 + 0.1 else c0
  let c2 := if rule.category == Category.work && hasGoodWorkData then c1 + 0.1 else c1
  let c3 := if ctx.config.strictMode then c2 + 0.1 else c2
  jsMin c3 1.0

instance : BEq Category := ⟨fun a b => decide (a = b)⟩

/-- `applyValidationRules`. -/
def applyValidationRules (now : JSDate) (ctx : ValidationContext) : List ValidationIssue :=
  (getValidationRules now).flatMap fun rule =>
    if rule.condition ctx then
      [⟨rule.severity, rule.category, rule.message ctx, extractRelevantDate ctx rule,
        (match rule.suggestion with
         | some f => f ctx
         | none => none),
        calculateRuleConfidence rule ctx⟩]
    else []

/-! ## Severity reclassification and the empty result (service.ts) -/

/-- `categorizeIssuesBySeverity`: critical issues below the confidence
threshold become plain warnings (whose context is the detected date); all
other issues are kept. -/
def categorizeIssuesBySeverity (cfg : ValidationConfig) :
    List ValidationIssue → List ValidationIssue × List ValidationWarning
  | [] => ([], [])
  | issue :: rest =>
    let r := categorizeIssuesBySeverity cfg rest
    if issue.confidence < cfg.confidenceThreshold && issue.type == IssueType.critical then
      (r.1, ⟨issue.category, issue.message, issue.detectedDate⟩ :: r.2)
    else
      (issue :: r.1, r.2)

/-- `createEmptyValidationResult`. -/
def createEmptyValidationResult (warningMessage : Option Str) : DateValidationResult :=
  ⟨true, [],
   (match warningMessage with
    | some m => [⟨Category.general, m, sL "System error during validation"⟩]
    | none => []),
   []⟩

/-! ## DateTypoDetector (date-validation/typo-detector.ts) -/

/-- Context keyword list shared verbatim by `ResumeDateParser.isEducationContext`
and `DateTypoDetector.isEducationContext`. -/
def educationContextKeywords : List Str :=
  ["university", "college", "school", "degree", "bachelor", "master", "phd",
   "doctorate", "diploma", "certificate", "graduation", "graduated",
   "education", "academic", "student", "gpa", "major", "minor"].map String.toList

/-- Context keyword list shared verbatim by `ResumeDateParser.isWorkContext`
and `DateTypoDetector.isWorkContext`. -/
def workContextKeywords : List Str :=
  ["company", "corporation", "inc", "ltd", "llc", "work", "job", "position",
   "role", "employment", "experience", "career", "professional", "intern",
   "internship", "volunteer", "manager", "developer", "engineer", "analyst",
   "consultant", "director"].map String.toList

def isEducationContext (context : Str) : Bool :=
  educationContextKeywords.any fun k => containsL (toLowerL context) k

def isWorkContext (context : Str) : Bool :=
  workContextKeywords.any fun k => containsL (toLowerL context) k

/-- `isReasonableYear` (typo detector). -/
def isReasonableYear (now : JSDate) (year : Int) : Bool :=
  1970 ≤ year && year ≤ now.year + 5

/-- `isCommonTypoPattern`. -/
def isCommonTypoPattern (originalYear suggestedYear : Int) : Bool :=
  let difference := (originalYear - suggestedYear).natAbs
  difference == 10 || difference == 1 || difference == 2

/-- `fitsEducationTimeline`. -/
def fitsEducationTimeline (now : JSDate) (year : Int) : Bool :=
  now.year - 15 ≤ year && year ≤ now.year + 4

/-- `fitsWorkTimeline`. -/
def fitsWorkTimeline (now : JSDate) (year : Int) : Bool :=
  now.year - 10 ≤ year && year ≤ now.year

/-- `calculateTypoConfidence`. -/
def calculateTypoConfidence (now : JSDate) (originalYear suggestedYear : Int)
    (extractedDate : ExtractedDate) : JsNum :=
  let c0 : JsNum := 0.5
  let originalDistance := (originalYear - now.year).natAbs
  let suggestedDistance := (suggestedYear - now.year).natAbs
  let c1 := if suggestedDistance < originalDistance then c0 + 0.2 else c0
  let c2 := if now.year + 5 < originalYear then c1 + 0.2 else c1
  let isEdu := isEducationContext extractedDate.context
  let isWork := isWorkContext extractedDate.context
  let c3 :=
    if isEdu && (now.year - 10 ≤ suggestedYear && suggestedYear ≤ now.year + 4) then c2 + 0.1
    else c2
  let c4 :=
    if isWork && (now.year - 5 ≤ suggestedYear && suggestedYear ≤ now.year) then c3 + 0.1
    else c3
  let c5 := if isCommonTypoPattern originalYear suggestedYear then c4 + 0.15 else c4
  jsMin c5 1.0

/-- `calculateTranspositionConfidence`. -/
def calculateTranspositionConfidence (now : JSDate) (originalYear transposedYear : Int) : JsNum :=
  let c0 : JsNum := 0.4
  let originalDistance := (originalYear - now.year).natAbs
  let transposedDistance := (transposedYear - now.year).natAbs
  let c1 := if jsn transposedDistance < jsn originalDistance / 2 then c0 + 0.3 else c0
  let c2 := if now.year + 10 < originalYear then c1 + 0.2 else c1
  jsMin c2 1.0

/-- `calculateOffByOneConfidence`. -/
def calculateOffByOneConfidence (now : JSDate) (originalYear candidateYear : Int)
    (extractedDate : ExtractedDate) : JsNum :=
  let c0 : JsNum := 0.3
  let isEdu := isEducationContext extractedDate.context
  let isWork := isWorkContext extractedDate.context
  let c1 := if isEdu && fitsEducationTimeline now candidateYear then c0 + 0.2 else c0
  let c2 := if isWork && fitsWorkTimeline now candidateYear then c1 + 0.2 else c1
  let c3 := if now.year + 2 < originalYear then c2 + 0.2 else c2
  jsMin c3 1.0

/-- `detectYearTypos`. -/
def detectYearTypos (now : JSDate) (year : Int) (extractedDate : ExtractedDate) :
    List DateSuggestion :=
  if 2 < year - now.year then
    [now.year, now.year - 1, now.year - 2].flatMap fun candidateYear =>
      let confidence := calculateTypoConfidence now year candidateYear extractedDate
      if (0.5 : JsNum) < confidence then
        let originalText := extractedDate.text
        let suggestedText := replaceFirstL originalText (renderInt year) (renderInt candidateYear)
        [⟨originalText, suggestedText,
          sL "Year " ++ renderInt year ++ sL " seems too far in the future. Did you mean "
            ++ renderInt candidateYear ++ sL "?",
          confidence⟩]
      else []
  else []

/-- `detectFutureDateTypos`. -/
def detectFutureDateTypos (now : JSDate) (cfg : ValidationConfig) (date : JSDate)
    (extractedDate : ExtractedDate) : List DateSuggestion :=
  let year := date.year
  let monthsDifference := jsn (date.getTime - now.getTime) / msPerMonthQ
  if monthsDifference > 60 then
    let isEdu := isEducationContext extractedDate.context
    let isWork := isWorkContext extractedDate.context
    let maxReasonableFuture : Int :=
      if isEdu then cfg.maxFutureEducationYears * 12
      else if isWork then cfg.maxFutureWorkMonths
      else 12
    if monthsDifference > jsn maxReasonableFuture then
      let decadeFix :=
        let suggestedYear := year - 10
        if 1990 ≤ suggestedYear && suggestedYear ≤ now.year then
          [(⟨extractedDate.text,
             replaceFirstL extractedDate.text (renderInt year) (renderInt suggestedYear),
             sL "Date " ++ renderInt year
               ++ sL " is too far in the future. Common typo: did you mean "
               ++ renderInt suggestedYear ++ sL "?",
             0.8⟩ : DateSuggestion)]
        else []
      let currentYearFix :=
        [(⟨extractedDate.text,
           replaceFirstL extractedDate.text (renderInt year) (renderInt now.year),
           sL "Date " ++ renderInt year ++ sL " is unrealistic. Consider if this should be "
             ++ renderInt now.year ++ sL ".",
           0.6⟩ : DateSuggestion)]
      decadeFix ++ currentYearFix
    else []
  else []

/-- Swap the characters at positions `i` and `i+1`. -/
def swapAdj (i : Nat) (l : Str) : Str :=
  l.take i ++
    (match l.drop i with
     | a :: b :: t => b :: a :: t
     | x => x)

/-- `detectTranspositionErrors`. -/
def detectTranspositionErrors (now : JSDate) (year : Int) (extractedDate : ExtractedDate) :
    List DateSuggestion :=
  let yearStr := renderInt year
  if yearStr.length != 4 then []
  else
    (List.range 3).flatMap fun i =>
      let chars := swapAdj i yearStr
      let transposedYear : Int := (digitsVal chars : Int)
      if isReasonableYear now transposedYear
          && (transposedYear - now.year).natAbs < (year - now.year).natAbs then
        let confidence := calculateTranspositionConfidence now year transposedYear
        if (0.4 : JsNum) < confidence then
          [⟨extractedDate.text,
            replaceFirstL extractedDate.text (renderInt year) (renderInt transposedYear),
            sL "Possible digit transposition: " ++ renderInt year ++ sL " â†’ "
              ++ renderInt transposedYear,
            confidence⟩]
        else []
      else []

/-- `detectOffByOneErrors`. -/
def detectOffByOneErrors (now : JSDate) (year : Int) (extractedDate : ExtractedDate) :
    List DateSuggestion :=
  [year - 1, year + 1].flatMap fun candidateYear =>
    if isReasonableYear now candidateYear then
      let confidence := calculateOffByOneConfidence now year candidateYear extractedDate
      if (0.3 : JsNum) < confidence then
        let direction := if year < candidateYear then sL "later" else sL "earlier"
        [⟨extractedDate.text,
          replaceFirstL extractedDate.text (renderInt year) (renderInt candidateYear),
          sL "Consider if this should be one year " ++ direction ++ sL ": "
            ++ renderInt candidateYear,
          confidence⟩]
      else []
    else []

/-- `createExtractedDateFromDate`: synthesizes an extracted entry from a
period's date and original text. -/
def createExtractedDateFromDate (date : JSDate) (originalText : Str) (contextType : Str) :
    ExtractedDate :=
  let yearStr := renderInt date.year
  let startIndex? := idxOfSub? originalText yearStr
  ⟨yearStr, startIndex?.getD 0,
   (match startIndex? with
    | some i => i + yearStr.length
    | none => yearStr.length),
   some ⟨yearStr, date, DateFormat.YEAR_ONLY, false, 0.9⟩,
   contextType ++ sL ": " ++ originalText⟩

/-- `extractAllDatesFromContext`. -/
def extractAllDatesFromContext (ctx : ValidationContext) : List ExtractedDate :=
  ctx.educationPeriods.flatMap
      (fun e =>
        (match e.startDate with
         | some d => [createExtractedDateFromDate d e.originalText (sL "education")]
         | none => [])
        ++ (match e.endDate with
            | some d => [createExtractedDateFromDate d e.originalText (sL "education")]
            | none => []))
    ++ ctx.workExperience.flatMap fun w =>
        (match w.startDate with
         | some d => [createExtractedDateFromDate d w.originalText (sL "work")]
         | none => [])
        ++ (match w.endDate with
            | some d => [createExtractedDateFromDate d w.originalText (sL "work")]
            | none => [])

/-- `analyzeForTypos`. -/
def analyzeForTypos (now : JSDate) (cfg : ValidationConfig) (extractedDate : ExtractedDate) :
    List DateSuggestion :=
  match extractedDate.parsedDate with
  | some pd =>
    let year := pd.normalized.year
    detectYearTypos now year extractedDate
      ++ detectFutureDateTypos now cfg pd.normalized extractedDate
      ++ detectTranspositionErrors now year extractedDate
      ++ detectOffByOneErrors now year extractedDate
  | none => []

/-- `detectTypos`. -/
def detectTypos (now : JSDate) (ctx : ValidationContext) : List DateSuggestion :=
  ((extractAllDatesFromContext ctx).flatMap fun extractedDate =>
    if extractedDate.parsedDate.isNone then []
    else analyzeForTypos now ctx.config extractedDate).filter
    fun suggestion => ctx.config.confidenceThreshold ≤ suggestion.confidence

/-! ## DateSuggestionGenerator (date-validation/suggestion-generator.ts) -/

/-- `getTypicalEducationDurations`. -/
def getTypicalEducationDurations (degree : Option Str) : List Int :=
  match degree with
  | none => [4]
  | some d =>
    let lowerDegree := toLowerL d
    if containsL lowerDegree (sL "bachelor") || containsL lowerDegree (sL "b.s.")
        || containsL lowerDegree (sL "b.a.") then [4, 3, 5]
    else if containsL lowerDegree (sL "master") || containsL lowerDegree (sL "m.s.")
        || containsL lowerDegree (sL "m.a.") || containsL lowerDegree (sL "mba") then [2, 1, 3]
    else if containsL lowerDegree (sL "phd") || containsL lowerDegree (sL "doctorate")
        || containsL lowerDegree (sL "ph.d.") then [5, 4, 6, 7]
    else if containsL lowerDegree (sL "certificate")
        || containsL lowerDegree (sL "diploma") then [1, 2]
    else [4]

/-- The apostrophe character (used inside a few message strings). -/
def apos : Char := Char.ofNat 39

/-- `getEducationType`. -/
def getEducationType (degree : Option Str) : Str :=
  match degree with
  | none => sL "degree"
  | some d =>
    let lowerDegree := toLowerL d
    if containsL lowerDegree (sL "bachelor") then sL "bachelor" ++ [apos] ++ sL "s degree"
    else if containsL lowerDegree (sL "master") then sL "master" ++ [apos] ++ sL "s degree"
    else if containsL lowerDegree (sL "phd") || containsL lowerDegree (sL "doctorate") then
      sL "doctoral degree"
    else if containsL lowerDegree (sL "certificate") then sL "certificate program"
    else if containsL lowerDegree (sL "diploma") then sL "diploma program"
    else sL "degree program"

/-- `generateReasonableGraduationYears`. -/
def generateReasonableGraduationYears (now : JSDate) (education : EducationPeriod)
    (cfg : ValidationConfig) : List Int :=
  let years :=
    match education.startDate with
    | some s =>
      let startYear := s.year
      (getTypicalEducationDurations education.degree).filterMap fun duration =>
        let suggestedYear := startYear + duration
        if now.year - 1 ≤ suggestedYear
            && suggestedYear ≤ now.year + cfg.maxFutureEducationYears then
          some suggestedYear
        else none
    | none => []
  if years.isEmpty then [now.year, now.year - 1, now.year - 2] else years

/-- Descending order on integers (`years.sort((a, b) => b - a)`). -/
def intGe (a b : Int) : Prop := b ≤ a

instance : DecidableRel intGe := fun _ _ => Int.decLe _ _

instance : IsTotal Int intGe := ⟨fun a b => Int.le_total b a⟩

instance : IsTrans Int intGe := ⟨fun _ _ _ h1 h2 => Int.le_trans h2 h1⟩

/-- `generateReasonableWorkEndYears`. -/
def generateReasonableWorkEndYears (now : JSDate) (work : WorkExperience) : List Int :=
  let years0 : List Int := [now.year, now.year - 1]
  let years1 :=
    match work.startDate with
    | some s =>
      let startYear := s.year
      let maxDuration : Int := min 5 (now.year - startYear + 1)
      (List.range maxDuration.toNat).foldl
        (fun (years : List Int) k =>
          let suggestedYear := startYear + ((k : Int) + 1)
          if suggestedYear ≤ now.year && !years.contains suggestedYear then
            years ++ [suggestedYear]
          else years)
        years0
    | none => years0
  years1.insertionSort intGe

/-- `generateDateOrderSuggestions` (the period's dates plus whether it is an
education period, which fixes the `type` label). -/
def generateDateOrderSuggestions (now : JSDate) (startDate endDate : Option JSDate)
    (isEducation : Bool) : List DateSuggestion :=
  match startDate, endDate with
  | some s, some e =>
    let startYear := s.year
    let endYear := e.year
    let swapSuggestion : DateSuggestion :=
      ⟨renderInt startYear ++ sL " - " ++ renderInt endYear,
       renderInt endYear ++ sL " - " ++ renderInt startYear,
       sL "Consider if the start and end dates are swapped", 0.6⟩
    let reasonableEndYear : Int :=
      if isEducation then startYear + 4 else min (startYear + 3) now.year
    let endYearSuggestion :=
      if reasonableEndYear ≠ endYear && startYear ≤ reasonableEndYear then
        [(⟨renderInt endYear, renderInt reasonableEndYear,
           sL "Consider if end date should be " ++ renderInt reasonableEndYear
             ++ sL " based on typical "
             ++ (if isEducation then sL "education" else sL "work") ++ sL " duration",
           0.5⟩ : DateSuggestion)]
      else []
    swapSuggestion :: endYearSuggestion
  | _, _ => []

/-- `generateEducationDurationSuggestions`. -/
def generateEducationDurationSuggestions (now : JSDate) (education : EducationPeriod)
    (cfg : ValidationConfig) : List DateSuggestion :=
  match education.startDate, education.endDate with
  | some s, some e =>
    let startYear := s.year
    let endYear := e.year
    let currentDuration := endYear - startYear
    (getTypicalEducationDurations education.degree).flatMap fun duration =>
      if duration ≠ currentDuration then
        let suggestedEndYear := startYear + duration
        if suggestedEndYear ≤ now.year + cfg.maxFutureEducationYears then
          [⟨renderInt endYear, renderInt suggestedEndYear,
            sL "Typical " ++ getEducationType education.degree ++ sL " duration is "
              ++ renderInt duration ++ sL " years",
            0.4⟩]
        else []
      else []
  | _, _ => []

/-- Ascending order on education start dates (entries lacking one compare
equal, as in the JS comparator over the filtered list). -/
def eduStartLe (a b : EducationPeriod) : Prop :=
  match a.startDate, b.startDate with
  | some x, some y => x.getTime ≤ y.getTime
  | _, _ => True

instance : DecidableRel eduStartLe := fun a b => by
  unfold eduStartLe
  cases a.startDate <;> cases b.startDate <;> exact inferInstance

/-- The consecutive-pair gap scan of
`generateEducationTimelineGapSuggestions`. -/
def eduGapScan : List EducationPeriod → List DateSuggestion
  | current :: next :: t =>
    (match current.endDate, next.startDate with
     | some e, some s =>
       let gapYears := s.year - e.year
       if 2 < gapYears then
         [⟨renderInt e.year ++ sL " to " ++ renderInt s.year,
           sL "Consider adding missing education or adjusting dates",
           renderInt gapYears
             ++ sL "-year gap in education timeline may indicate missing information",
           0.3⟩]
       else []
     | _, _ => [])
    ++ eduGapScan (next :: t)
  | _ => []

/-- `generateEducationTimelineGapSuggestions`. -/
def generateEducationTimelineGapSuggestions (educationPeriods : List EducationPeriod) :
    List DateSuggestion :=
  eduGapScan
    ((educationPeriods.filter fun edu => edu.startDate.isSome).insertionSort eduStartLe)

/-- `hasSignificantOverlap`. -/
def hasSignificantOverlap (now : JSDate) (w1 w2 : WorkExperience) : Bool :=
  match w1.startDate, w2.startDate with
  | some s1, some s2 =>
    let work1End := match w1.endDate with
      | some e => e
      | none => now
    let work2End := match w2.endDate with
      | some e => e
      | none => now
    let overlapStart := max s1.getTime s2.getTime
    let overlapEnd := min work1End.getTime work2End.getTime
    let overlapMonths := jsn (overlapEnd - overlapStart) / msPerMonthQ
    decide (overlapMonths > 6)
  | _, _ => false

/-- `generateOverlapSuggestion`. -/
def generateOverlapSuggestion (w1 w2 : WorkExperience) : Option DateSuggestion :=
  match w1.endDate, w2.startDate with
  | some e, some s =>
    let suggestedEndDate := dateOfTime (s.getTime - 24 * 60 * 60 * 1000)
    some ⟨e.toLocaleDateString, suggestedEndDate.toLocaleDateString,
      sL "Adjust end date to avoid overlap with " ++ w2.company, 0.4⟩
  | _, _ => none

/-- The pairwise loop of `generateWorkTimelineOverlapSuggestions`. -/
def workOverlapScan (now : JSDate) : List WorkExperience → List DateSuggestion
  | [] => []
  | w1 :: rest =>
    (rest.filterMap fun w2 =>
      if hasSignificantOverlap now w1 w2 then generateOverlapSuggestion w1 w2 else none)
    ++ workOverlapScan now rest

def generateWorkTimelineOverlapSuggestions (now : JSDate)
    (workExperience : List WorkExperience) : List DateSuggestion :=
  workOverlapScan now workExperience

/-- `generateTimelineSuggestions`. -/
def generateTimelineSuggestions (now : JSDate) (ctx : ValidationContext) : List DateSuggestion :=
  generateEducationTimelineGapSuggestions ctx.educationPeriods
    ++ generateWorkTimelineOverlapSuggestions now ctx.workExperience

/-- One backtracking branch of `/(\d{1,2})\/(\d{1,2})\/(\d{2})$/`. -/
def tryMDYY (l : Str) (mLen dLen : Nat) : Option (Nat × Str × Str × Str) :=
  match takeDigitsN mLen l with
  | some (g1, r1) =>
    match r1 with
    | '/' :: r2 =>
      match takeDigitsN dLen r2 with
      | some (g2, r3) =>
        match r3 with
        | '/' :: r4 =>
          match takeDigitsN 2 r4 with
          | some (g3, r5) =>
            if r5.isEmpty then some (mLen + 1 + dLen + 1 + 2, g1, g2, g3) else none
          | none => none
        | _ => none
      | none => none
    | _ => none
  | none => none

def matchMDYYAt (_prev : Option Char) (l : Str) : Option (Nat × Str × Str × Str) :=
  (tryMDYY l 2 2).orElse fun _ =>
    (tryMDYY l 2 1).orElse fun _ =>
      (tryMDYY l 1 2).orElse fun _ => tryMDYY l 1 1

/-- One backtracking branch of `/(\d{4})-(\d{1,2})-(\d{1,2})/` (the last
group is greedy with nothing after it). -/
def tryYMD (l : Str) (g2len : Nat) : Option (Nat × Str × Str × Str) :=
  match takeDigitsN 4 l with
  | some (g1, r1) =>
    match r1 with
    | '-' :: r2 =>
      match takeDigitsN g2len r2 with
      | some (g2, r3) =>
        match r3 with
        | '-' :: r4 =>
          match takeDigitsN 2 r4 with
          | some (g3, _) => some (4 + 1 + g2len + 1 + 2, g1, g2, g3)
          | none =>
            match takeDigitsN 1 r4 with
            | some (g3, _) => some (4 + 1 + g2len + 1 + 1, g1, g2, g3)
            | none => none
        | _ => none
      | none => none
    | _ => none
  | none => none

def matchYMDAt (_prev : Option Char) (l : Str) : Option (Nat × Str × Str × Str) :=
  (tryYMD l 2).orElse fun _ => tryYMD l 1

/-- One backtracking branch of `/(\d{1,2})-(\d{1,2})-(\d{4})/`. -/
def tryMDY4 (l : Str) (mLen dLen : Nat) : Option (Nat × Str × Str × Str) :=
  match takeDigitsN mLen l with
  | some (g1, r1) =>
    match r1 with
    | '-' :: r2 =>
      match takeDigitsN dLen r2 with
      | some (g2, r3) =>
        match r3 with
        | '-' :: r4 =>
          match takeDigitsN 4 r4 with
          | some (g3, _) => some (mLen + 1 + dLen + 1 + 4, g1, g2, g3)
          | none => none
        | _ => none
      | none => none
    | _ => none
  | none => none

def matchMDY4At (_prev : Option Char) (l : Str) : Option (Nat × Str × Str × Str) :=
  (tryMDY4 l 2 2).orElse fun _ =>
    (tryMDY4 l 2 1).orElse fun _ =>
      (tryMDY4 l 1 2).orElse fun _ => tryMDY4 l 1 1

/-- Apply one format correction: if the pattern matches, replace the first
match using the given capture-based builder. -/
def applyFormatCorrection (dateString : Str)
    (matcher : Option Char → Str → Option (Nat × Str × Str × Str))
    (build : Str → Str → Str → Str) (reason : Str) : List DateSuggestion :=
  match firstMatchIdx matcher none dateString 0 with
  | some (i, len, g1, g2, g3) =>
    let suggestedDate := dateString.take i ++ build g1 g2 g3 ++ dateString.drop (i + len)
    [⟨dateString, suggestedDate, reason, 0.6⟩]
  | none => []

/-- `generateDateFormatSuggestions`: the three hard-coded corrections, in
order. -/
def generateDateFormatSuggestions (dateString : Str) : List DateSuggestion :=
  applyFormatCorrection dateString matchMDYYAt
      (fun g1 g2 g3 => g1 ++ sL "/" ++ g2 ++ sL "/20" ++ g3)
      (sL "Convert 2-digit year to 4-digit year")
    ++ applyFormatCorrection dateString matchYMDAt
      (fun g1 g2 g3 => g2 ++ sL "/" ++ g3 ++ sL "/" ++ g1)
      (sL "Convert ISO format to MM/DD/YYYY")
    ++ applyFormatCorrection dateString matchMDY4At
      (fun g1 g2 g3 => g1 ++ sL "/" ++ g2 ++ sL "/" ++ g3)
      (sL "Use forward slashes instead of dashes")

/-- `findRelatedEducation`. -/
def findRelatedEducation (issue : ValidationIssue) (educationPeriods : List EducationPeriod) :
    Option EducationPeriod :=
  educationPeriods.find? fun edu =>
    containsL edu.originalText issue.detectedDate
      || (match edu.startDate with
          | some s => s.toLocaleDateString == issue.detectedDate
          | none => false)
      || (match edu.endDate with
          | some e => e.toLocaleDateString == issue.detectedDate
          | none => false)

/-- `findRelatedWork`. -/
def findRelatedWork (issue : ValidationIssue) (workExperience : List WorkExperience) :
    Option WorkExperience :=
  workExperience.find? fun work =>
    containsL work.originalText issue.detectedDate
      || (match work.startDate with
          | some s => s.toLocaleDateString == issue.detectedDate
          | none => false)
      || (match work.endDate with
          | some e => e.toLocaleDateString == issue.detectedDate
          | none => false)

/-- `replaceDateYear`: replace the first `\b\d{4}\b` match. -/
def replaceDateYear (dateString : Str) (newYear : Int) : Str :=
  match firstMatchIdx matchAnyYearAt none dateString 0 with
  | some (i, _, _) => dateString.take i ++ renderInt newYear ++ dateString.drop (i + 4)
  | none => dateString

/-- `calculateEducationSuggestionConfidence`. -/
def calculateEducationSuggestionConfidence (now : JSDate) (year : Int)
    (education : EducationPeriod) (cfg : ValidationConfig) : JsNum :=
  let c0 : JsNum := 0.5
  let c1 :=
    if now.year - 1 ≤ year && year ≤ now.year + cfg.maxFutureEducationYears then c0 + 0.2
    else c0
  let c2 :=
    match education.startDate with
    | some s =>
      let duration := year - s.year
      if (getTypicalEducationDurations education.degree).contains duration then c1 + 0.2
      else c1
    | none => c1
  jsMin c2 1.0

/-- `calculateWorkSuggestionConfidence`. -/
def calculateWorkSuggestionConfidence (now : JSDate) (year : Int) (work : WorkExperience) :
    JsNum :=
  let c0 : JsNum := 0.5
  let c1 := if now.year - 5 ≤ year && year ≤ now.year then c0 + 0.2 else c0
  let c2 :=
    match work.startDate with
    | some s =>
      let duration := year - s.year
      if 0 ≤ duration && duration ≤ 10 then c1 + 0.1 else c1
    | none => c1
  jsMin c2 1.0

/-- `shouldSuggestOngoing`. -/
def shouldSuggestOngoing (now : JSDate) (work : WorkExperience) (cfg : ValidationConfig) :
    Bool :=
  match work.endDate with
  | none => false
  | some e =>
    let monthsDifference := jsn (e.getTime - now.getTime) / msPerMonthQ
    decide (monthsDifference > -3) && decide (monthsDifference < jsn cfg.maxFutureWorkMonths)

/-- `generateEducationSuggestions`. -/
def generateEducationSuggestions (now : JSDate) (issue : ValidationIssue)
    (ctx : ValidationContext) : List DateSuggestion :=
  match findRelatedEducation issue ctx.educationPeriods with
  | none => []
  | some relatedEducation =>
    let gradPart :=
      if containsL issue.message (sL "graduation date")
          && containsL issue.message (sL "future") then
        (generateReasonableGraduationYears now relatedEducation ctx.config).flatMap fun year =>
          let originalDate := issue.detectedDate
          let suggestedDate := replaceDateYear originalDate year
          if suggestedDate ≠ originalDate then
            [(⟨originalDate, suggestedDate,
               sL "Consider if graduation should be " ++ renderInt year
                 ++ sL " instead of the current date",
               calculateEducationSuggestionConfidence now year relatedEducation ctx.config⟩ :
              DateSuggestion)]
          else []
      else []
    let orderPart :=
      if containsL issue.message (sL "start date") && containsL issue.message (sL "after") then
        generateDateOrderSuggestions now relatedEducation.startDate relatedEducation.endDate true
      else []
    let durationPart :=
      if containsL issue.message (sL "unusually long")
          || containsL issue.message (sL "seems short") then
        generateEducationDurationSuggestions now relatedEducation ctx.config
      else []
    gradPart ++ orderPart ++ durationPart

/-- `generateWorkSuggestions`. -/
def generateWorkSuggestions (now : JSDate) (issue : ValidationIssue)
    (ctx : ValidationContext) : List DateSuggestion :=
  match findRelatedWork issue ctx.workExperience with
  | none => []
  | some relatedWork =>
    let endPart :=
      if containsL issue.message (sL "end date") && containsL issue.message (sL "future") then
        ((generateReasonableWorkEndYears now relatedWork).flatMap fun year =>
          let originalDate := issue.detectedDate
          let suggestedDate := replaceDateYear originalDate year
          if suggestedDate ≠ originalDate then
            [(⟨originalDate, suggestedDate,
               sL "Consider if employment should end in " ++ renderInt year
                 ++ sL " or mark as \"Present\" if ongoing",
               calculateWorkSuggestionConfidence now year relatedWork⟩ : DateSuggestion)]
          else [])
        ++ (if shouldSuggestOngoing now relatedWork ctx.config then
              [(⟨issue.detectedDate, sL "Present",
                 sL "Consider marking this position as \"Present\" or \"Current\" if still employed",
                 0.7⟩ : DateSuggestion)]
            else [])
      else []
    let orderPart :=
      if containsL issue.message (sL "start date") && containsL issue.message (sL "after") then
        generateDateOrderSuggestions now relatedWork.startDate relatedWork.endDate false
      else []
    endPart ++ orderPart

/-- `generateGeneralSuggestions`. -/
def generateGeneralSuggestions (issue : ValidationIssue) : List DateSuggestion :=
  if containsL issue.message (sL "format") || containsL issue.message (sL "invalid") then
    generateDateFormatSuggestions issue.detectedDate
  else []

/-- `generateContextAwareSuggestions`. -/
def generateContextAwareSuggestions (now : JSDate) (issue : ValidationIssue)
    (ctx : ValidationContext) : List DateSuggestion :=
  match issue.category with
  | Category.education => generateEducationSuggestions now issue ctx
  | Category.work => generateWorkSuggestions now issue ctx
  | Category.general => generateGeneralSuggestions issue

/-- The merged suggestion list assembled by `generateSuggestions` before
filtering and ranking: typo detector output, then per-issue context-aware
suggestions, then timeline-based suggestions. -/
def mergedSuggestions (now : JSDate) (ctx : ValidationContext)
    (issues : List ValidationIssue) : List DateSuggestion :=
  detectTypos now ctx
    ++ issues.flatMap (fun issue => generateContextAwareSuggestions now issue ctx)
    ++ generateTimelineSuggestions now ctx

/-- Descending order on suggestion confidence
(`sort((a, b) => b.confidence - a.confidence)`). -/
def suggestionDescLe (a b : DateSuggestion) : Prop := b.confidence ≤ a.confidence

instance : DecidableRel suggestionDescLe := fun _ _ => Int.decLe _ _

instance : IsTotal DateSuggestion suggestionDescLe :=
  ⟨fun a b => Int.le_total (b.confidence.num * a.confidence.den)
    (a.confidence.num * b.confidence.den)⟩

instance : IsTrans DateSuggestion suggestionDescLe :=
  ⟨fun a b c h1 h2 => by
    have hb := b.confidence.den_pos
    have H1 := mul_le_mul_of_nonneg_right h2 (le_of_lt a.confidence.den_pos)
    have H2 := mul_le_mul_of_nonneg_right h1 (le_of_lt c.confidence.den_pos)
    have H3 : c.confidence.num * a.confidence.den * b.confidence.den ≤
        a.confidence.num * c.confidence.den * b.confidence.den := by nlinarith
    exact le_of_mul_le_mul_right (by linarith) hb⟩

/-- `filterAndRankSuggestions`: deduplicate by (originalDate, suggestedDate),
filter by the confidence threshold, sort descending by confidence. -/
def filterAndRankSuggestions (suggestions : List DateSuggestion)
    (ctx : ValidationContext) : List DateSuggestion :=
  let uniqueSuggestions := dedupeByKey (fun s => (s.originalDate, s.suggestedDate)) suggestions
  let filteredSuggestions := uniqueSuggestions.filter fun suggestion =>
    ctx.config.confidenceThreshold ≤ suggestion.confidence
  filteredSuggestions.insertionSort suggestionDescLe

/-- `generateSuggestions`. -/
def generateSuggestions (now : JSDate) (ctx : ValidationContext)
    (issues : List ValidationIssue) : List DateSuggestion :=
  filterAndRankSuggestions (mergedSuggestions now ctx issues) ctx

/-! ## The orchestrator (service.ts validateResumeDates) -/

/-- The validation context assembled from the resume text. -/
def validationContextOf (now : JSDate) (cfg : ValidationConfig) (resumeText : Str) :
    ValidationContext :=
  ⟨now, parseEducationDates now resumeText, parseWorkExperience now resumeText, cfg,
   resumeText⟩

/-- All issues collected by the orchestrator before severity
reclassification: education timeline, work timeline, then rule-based. -/
def allIssuesOf (now : JSDate) (cfg : ValidationConfig) (resumeText : Str) :
    List ValidationIssue :=
  let ctx := validationContextOf now cfg resumeText
  validateEducationTimeline now cfg ctx.educationPeriods
    ++ validateWorkTimeline now cfg ctx.workExperience
    ++ applyValidationRules now ctx

/-- `validateResumeDates` (the success path; every stage of this model is
total, so the per-stage catch handlers are dead code). -/
def validateResumeDates (now : JSDate) (cfg : ValidationConfig) (resumeText : Str) :
    DateValidationResult :=
  if resumeText.isEmpty then
    createEmptyValidationResult (some (sL "Invalid resume text provided"))
  else if (trimL resumeText).isEmpty then
    createEmptyValidationResult (some (sL "Empty resume text provided"))
  else
    let ctx := validationContextOf now cfg resumeText
    let allIssues := allIssuesOf now cfg resumeText
    let suggestions :=
      if cfg.enableTypoDetection then generateSuggestions now ctx allIssues else []
    let categorized := categorizeIssuesBySeverity cfg allIssues
    let issues := categorized.1
    let warnings := categorized.2
    let criticalIssues := issues.filter fun issue => issue.type == IssueType.critical
    ⟨criticalIssues.length == 0, issues, warnings, suggestions⟩

/-- The value returned by the orchestrator's top-level catch handler. -/
def validateResumeDatesOnError : DateValidationResult :=
  createEmptyValidationResult
    (some (sL "Date validation temporarily unavailable due to an internal error"))

/-- The orchestrator's top-level try/catch, modeled over `Except`: a body
that completes yields its result; a body that raises is converted to the
valid-by-default empty result with one explanatory warning. -/
def validateResumeDatesTopLevel {ε : Type} (body : Except ε DateValidationResult) :
    DateValidationResult :=
  match body with
  | Except.ok r => r
  | Except.error _ => validateResumeDatesOnError

/-! # Theorems

Helper lemmas first, then one theorem per specification claim (with
counterexamples and witnesses where applicable). -/

/-- A list of issues has no critical member exactly when the critical filter
is empty. -/
theorem filter_critical_length_iff (l : List ValidationIssue) :
    ((l.filter fun issue => issue.type == IssueType.critical).length == 0) = true
      ↔ ∀ i ∈ l, i.type ≠ IssueType.critical := by
  rw [beq_iff_eq, List.length_eq_zero, List.filter_eq_nil_iff]
  simp

/-- `categorizeIssuesBySeverity` splits its input into the issues that keep
their severity and the warnings converted from low-confidence criticals. -/
theorem categorize_eq (cfg : ValidationConfig) (l : List ValidationIssue) :
    categorizeIssuesBySeverity cfg l =
      (l.filter fun i => !(decide (i.confidence < cfg.confidenceThreshold)
          && i.type == IssueType.critical),
       (l.filter fun i => decide (i.confidence < cfg.confidenceThreshold)
          && i.type == IssueType.critical).map
         fun i => (⟨i.category, i.message, i.detectedDate⟩ : ValidationWarning)) := by
  induction l with
  | nil => rfl
  | cons i rest ih =>
    by_cases hlt : i.confidence < cfg.confidenceThreshold
    · by_cases hty : i.type = IssueType.critical
      · simp [categorizeIssuesBySeverity, ih, List.filter_cons, hlt, hty]
      · simp [categorizeIssuesBySeverity, ih, List.filter_cons, hlt, hty]
    · simp [categorizeIssuesBySeverity, ih, List.filter_cons, hlt]

/-- The duplicate-removal idiom keeps at most one element per key. -/
theorem dedupeByKey_keys_nodup {α κ : Type} [DecidableEq κ] (key : α → κ) (l : List α) :
    ((dedupeByKey key l).map key).Nodup := by
  unfold dedupeByKey
  rw [List.map_map]
  have base : (l.enum).Pairwise (fun a b => a.1 ≠ b.1) := by
    have h1 : (l.enum.map Prod.fst).Nodup := by
      rw [List.enum_map_fst]; exact List.nodup_range l.length
    exact List.pairwise_map.mp h1
  have filt := base.filter
    (fun p => l.findIdx (fun x => decide (key x = key p.2)) == p.1)
  have step : (l.enum.filter
      (fun p => l.findIdx (fun x => decide (key x = key p.2)) == p.1)).Pairwise
      (fun a b => key a.2 ≠ key b.2) := by
    refine List.Pairwise.imp_of_mem ?_ filt
    intro a b ha hb hne hkey
    have hpa := (List.mem_filter.mp ha).2
    have hpb := (List.mem_filter.mp hb).2
    rw [beq_iff_eq] at hpa hpb
    apply hne
    have hfun : (fun x => decide (key x = key a.2)) = (fun x => decide (key x = key b.2)) := by
      funext x; rw [hkey]
    rw [← hpa, ← hpb, hfun]
  exact List.pairwise_map.mpr step

/-- `deduplicateAndSort` output is sorted ascending by start index. -/
theorem deduplicateAndSort_sorted (l : List ExtractedDate) :
    List.Sorted extractedLe (deduplicateAndSort l) :=
  List.sorted_insertionSort extractedLe _

/-- `deduplicateAndSort` output has pairwise-distinct (startIndex, text). -/
theorem deduplicateAndSort_keys_nodup (l : List ExtractedDate) :
    ((deduplicateAndSort l).map fun d => (d.startIndex, d.text)).Nodup := by
  unfold deduplicateAndSort
  have hperm :=
    (List.perm_insertionSort extractedLe
      (dedupeByKey (fun d => (d.startIndex, d.text)) l)).map
      fun d => (d.startIndex, d.text)
  exact hperm.nodup_iff.mpr (dedupeByKey_keys_nodup _ l)

/-- Claim C1: for every input text, the result of `validateResumeDates` has
`isValid = true` exactly when no element of its issues list has type
critical. -/
theorem c1_isValid_iff_no_critical (now : JSDate) (cfg : ValidationConfig) (text : Str) :
    (validateResumeDates now cfg text).isValid = true
      ↔ ∀ i ∈ (validateResumeDates now cfg text).issues, i.type ≠ IssueType.critical := by
  unfold validateResumeDates
  by_cases h1 : text.isEmpty = true
  · simp [h1, createEmptyValidationResult]
  · by_cases h2 : (trimL text).isEmpty = true
    · simp [h1, h2, createEmptyValidationResult]
    · simp only [h1, h2, if_false, Bool.false_eq_true]
      exact filter_critical_length_iff _

/-- Witness for C1 at a concrete input. -/
theorem c1_witness :
    (validateResumeDates ⟨2026, 9, 11⟩ DEFAULT_VALIDATION_CONFIG (sL "hello")).isValid = true :=
  (c1_isValid_iff_no_critical ⟨2026, 9, 11⟩ DEFAULT_VALIDATION_CONFIG (sL "hello")).mpr
    (by decide)

/-- Claim C2: the orchestrator's top-level handler never lets an error
escape: a raising body is converted to the valid-by-default empty result
carrying exactly one explanatory general-category warning, and a completing
body's result is returned unchanged. -/
theorem c2_top_level_catch {ε : Type} :
    (∀ e : ε,
      validateResumeDatesTopLevel (Except.error e) =
        { isValid := true, issues := [],
          warnings := [⟨Category.general,
            sL "Date validation temporarily unavailable due to an internal error",
            sL "System error during validation"⟩],
          suggestions := [] })
    ∧ ∀ r, validateResumeDatesTopLevel (Except.ok (ε := ε) r) = r :=
  ⟨fun _ => rfl, fun _ => rfl⟩

/-- Claim C4: empty or whitespace-only input yields the valid empty result
with exactly one general-category warning, and nothing else. -/
theorem c4_empty_input (now : JSDate) (cfg : ValidationConfig) (text : Str)
    (h : trimL text = []) :
    ∃ w : ValidationWarning,
      validateResumeDates now cfg text =
        { isValid := true, issues := [], warnings := [w], suggestions := [] }
      ∧ w.category = Category.general := by
  cases text with
  | nil =>
    exact ⟨⟨Category.general, sL "Invalid resume text provided",
      sL "System error during validation"⟩, rfl, rfl⟩
  | cons c t =>
    refine ⟨⟨Category.general, sL "Empty resume text provided",
      sL "System error during validation"⟩, ?_, rfl⟩
    unfold validateResumeDates
    simp [h, createEmptyValidationResult]

/-- Witness for C4: whitespace-only input. -/
theorem c4_witness :
    ∃ w : ValidationWarning,
      validateResumeDates ⟨2026, 9, 11⟩ DEFAULT_VALIDATION_CONFIG (sL "  ") =
        { isValid := true, issues := [], warnings := [w], suggestions := [] }
      ∧ w.category = Category.general :=
  c4_empty_input ⟨2026, 9, 11⟩ DEFAULT_VALIDATION_CONFIG (sL "  ") (by decide)

/-- Claim C3: a validator-produced critical issue whose confidence is below
the configured threshold is absent from the final issues list, appears in
the warnings list as a plain warning built from its category, message and
detected date (the suggested fix is dropped), and `isValid` is still
determined solely by the remaining issues. -/
theorem c3_reclassification (now : JSDate) (cfg : ValidationConfig) (text : Str)
    (issue : ValidationIssue)
    (hText : trimL text ≠ [])
    (hIn : issue ∈ allIssuesOf now cfg text)
    (hCrit : issue.type = IssueType.critical)
    (hConf : issue.confidence < cfg.confidenceThreshold) :
    issue ∉ (validateResumeDates now cfg text).issues
    ∧ (⟨issue.category, issue.message, issue.detectedDate⟩ : ValidationWarning)
        ∈ (validateResumeDates now cfg text).warnings
    ∧ ((validateResumeDates now cfg text).isValid = true
        ↔ ∀ i ∈ (validateResumeDates now cfg text).issues, i.type ≠ IssueType.critical) := by
  have hne : text ≠ [] := by
    intro h
    rw [h] at hText
    exact hText rfl
  have h1 : text.isEmpty = false := by
    cases text with
    | nil => exact absurd rfl hne
    | cons c t => rfl
  have h2 : (trimL text).isEmpty = false := by
    cases htl : trimL text with
    | nil => exact absurd htl hText
    | cons c t => rfl
  unfold validateResumeDates
  simp only [h1, h2, Bool.false_eq_true, if_false, categorize_eq]
  refine ⟨?_, ?_, ?_⟩
  · intro hmem
    have := (List.mem_filter.mp hmem).2
    simp [hCrit, hConf] at this
  · exact List.mem_map.mpr ⟨issue,
      List.mem_filter.mpr ⟨hIn, by simp [hCrit, hConf]⟩, rfl⟩
  · exact filter_critical_length_iff _

/-- Witness for C3: a resume whose only line carries an education keyword
and a far-future bare year, validated with a 0.95 confidence threshold, so
the 0.9-confidence critical graduation issue is reclassified. -/
theorem c3_witness :
    (⟨IssueType.critical, Category.education,
      sL "Graduation date 2033 is more than 4 years in the future, which seems unrealistic.",
      sL "1/1/2033",
      some (sL "Consider checking if this should be 2023 instead."), 0.9⟩ : ValidationIssue)
      ∉ (validateResumeDates ⟨2026, 9, 11⟩ ⟨4, 3, false, 0.95, false⟩
          (sL "University 2033")).issues
    ∧ (⟨Category.education,
        sL "Graduation date 2033 is more than 4 years in the future, which seems unrealistic.",
        sL "1/1/2033"⟩ : ValidationWarning)
        ∈ (validateResumeDates ⟨2026, 9, 11⟩ ⟨4, 3, false, 0.95, false⟩
            (sL "University 2033")).warnings
    ∧ ((validateResumeDates ⟨2026, 9, 11⟩ ⟨4, 3, false, 0.95, false⟩
          (sL "University 2033")).isValid = true
        ↔ ∀ i ∈ (validateResumeDates ⟨2026, 9, 11⟩ ⟨4, 3, false, 0.95, false⟩
            (sL "University 2033")).issues, i.type ≠ IssueType.critical) :=
  c3_reclassification ⟨2026, 9, 11⟩ ⟨4, 3, false, 0.95, false⟩ (sL "University 2033")
    ⟨IssueType.critical, Category.education,
      sL "Graduation date 2033 is more than 4 years in the future, which seems unrealistic.",
      sL "1/1/2033",
      some (sL "Consider checking if this should be 2023 instead."), 0.9⟩
    (by decide) (by decide) (by decide) (by decide)

/-- Counterexample to claim C5 as stated: on text containing exactly the
scenario sentence, the single education period's start date is January 1,
2018 (from the bare-year match "2018"), not September 1, 2018. -/
theorem c5_counterexample :
    ¬ ((parseEducationDates ⟨2026, 9, 11⟩
        (sL "Bachelor of Computer Science, University of Technology, September 2018 - May 2022")).map
        (fun p => (p.startDate, p.endDate, p.isOngoing))
      = [(some ⟨2018, 8, 1⟩, some ⟨2022, 4, 1⟩, false)]) := by
  decide

/-- Claim C5 as amended: the scenario text yields exactly one education
period with start date 2018-01-01 (the bare-year "2018" also matches and
normalizes to January 1, becoming the earliest date), end date 2022-05-01,
not ongoing, and validating it raises no critical issues. -/
theorem c5_amended :
    ((parseEducationDates ⟨2026, 9, 11⟩
        (sL "Bachelor of Computer Science, University of Technology, September 2018 - May 2022")).map
        (fun p => (p.startDate, p.endDate, p.isOngoing))
      = [(some ⟨2018, 0, 1⟩, some ⟨2022, 4, 1⟩, false)])
    ∧ ((validateEducationTimeline ⟨2026, 9, 11⟩ DEFAULT_VALIDATION_CONFIG
        (parseEducationDates ⟨2026, 9, 11⟩
          (sL "Bachelor of Computer Science, University of Technology, September 2018 - May 2022"))).all
        fun i => !(i.type == IssueType.critical)) = true := by
  exact ⟨by decide, by decide⟩

/-- Counterexample to claim C6 as stated: extraction over the malformed
range "2025/13/45 - 2026/99/99" does produce valid `ParsedDate`s (the bare
years still match the year-only pattern). -/
theorem c6_counterexample :
    ¬ (((extractDatesFromText ⟨2026, 9, 11⟩ (sL "2025/13/45 - 2026/99/99")).all
        fun d => d.parsedDate.isNone) = true) := by
  decide

/-- Claim C6 as amended: on the malformed span no full-date parse occurs
(the invalid month/day values never match the full-date pattern), but the
bare years 2025 and 2026 are extracted as valid YEAR_ONLY dates; extraction
of a containing document completes and still extracts the rest. -/
theorem c6_amended :
    ((extractDatesFromText ⟨2026, 9, 11⟩ (sL "2025/13/45 - 2026/99/99")).map
        (fun d => (d.text, d.startIndex, d.parsedDate.map fun p => (p.format, p.normalized)))
      = [(sL "2025", 0, some (DateFormat.YEAR_ONLY, ⟨2025, 0, 1⟩)),
         (sL "2026", 13, some (DateFormat.YEAR_ONLY, ⟨2026, 0, 1⟩))])
    ∧ ((extractDatesFromText ⟨2026, 9, 11⟩
          (sL "Jan 2020\n2025/13/45 - 2026/99/99\nMay 2021")).any
        fun d => d.text == sL "Jan 2020"
          && (d.parsedDate.map (fun p => p.format) == some DateFormat.MONTH_YEAR)) = true
    ∧ ((extractDatesFromText ⟨2026, 9, 11⟩
          (sL "Jan 2020\n2025/13/45 - 2026/99/99\nMay 2021")).all
        fun d => !(d.parsedDate.map (fun p => p.format) == some DateFormat.FULL_DATE)) = true := by
  exact ⟨by decide, by decide, by decide⟩

/-- Claim C8: `extractDatesFromText` always returns a list sorted ascending
by start index, with no two entries sharing the same (startIndex, text)
pair, and two runs on the same text agree. -/
theorem c8_extract_dedup_sorted (now : JSDate) (text : Str) :
    List.Sorted extractedLe (extractDatesFromText now text)
    ∧ ((extractDatesFromText now text).map fun d => (d.startIndex, d.text)).Nodup
    ∧ extractDatesFromText now text = extractDatesFromText now text := by
  refine ⟨?_, ?_, rfl⟩
  · unfold extractDatesFromText
    by_cases h1 : text.isEmpty = true
    · simp [h1]
    · by_cases h2 : (trimL text).isEmpty = true
      · simp [h1, h2]
      · simp only [h1, h2, Bool.false_eq_true, if_false]
        exact deduplicateAndSort_sorted _
  · unfold extractDatesFromText
    by_cases h1 : text.isEmpty = true
    · simp [h1]
    · by_cases h2 : (trimL text).isEmpty = true
      · simp [h1, h2]
      · simp only [h1, h2, Bool.false_eq_true, if_false]
        exact deduplicateAndSort_keys_nodup _

/-- Claim C9: the ranked suggestion list is deduplicated by
(originalDate, suggestedDate), contains only suggestions at or above the
confidence threshold, is sorted descending by confidence, is not truncated
(every deduplicated suggestion meeting the threshold is present), and is
exactly what `generateSuggestions` returns for the merged suggestion set. -/
theorem c9_suggestion_ranking (ss : List DateSuggestion) (ctx : ValidationContext) :
    ((filterAndRankSuggestions ss ctx).map fun s => (s.originalDate, s.suggestedDate)).Nodup
    ∧ (∀ s ∈ filterAndRankSuggestions ss ctx,
        ctx.config.confidenceThreshold ≤ s.confidence)
    ∧ List.Sorted suggestionDescLe (filterAndRankSuggestions ss ctx)
    ∧ (∀ s ∈ dedupeByKey (fun s => (s.originalDate, s.suggestedDate)) ss,
        ctx.config.confidenceThreshold ≤ s.confidence → s ∈ filterAndRankSuggestions ss ctx)
    ∧ ∀ (now : JSDate) (issues : List ValidationIssue),
        generateSuggestions now ctx issues
          = filterAndRankSuggestions (mergedSuggestions now ctx issues) ctx := by
  have hperm := List.perm_insertionSort suggestionDescLe
    ((dedupeByKey (fun s => (s.originalDate, s.suggestedDate)) ss).filter
      fun suggestion => ctx.config.confidenceThreshold ≤ suggestion.confidence)
  refine ⟨?_, ?_, ?_, ?_, fun _ _ => rfl⟩
  · have hsub : ((dedupeByKey (fun s => (s.originalDate, s.suggestedDate)) ss).filter
        fun suggestion => ctx.config.confidenceThreshold ≤ suggestion.confidence).Sublist
        (dedupeByKey (fun s => (s.originalDate, s.suggestedDate)) ss) :=
      List.filter_sublist _
    have hnd := (hsub.map fun s => (s.originalDate, s.suggestedDate)).nodup
      (dedupeByKey_keys_nodup _ ss)
    exact ((hperm.map fun s => (s.originalDate, s.suggestedDate)).nodup_iff).mpr hnd
  · intro s hs
    have := List.mem_filter.mp (hperm.mem_iff.mp hs)
    exact of_decide_eq_true this.2
  · exact List.sorted_insertionSort suggestionDescLe _
  · intro s hs hconf
    exact hperm.mem_iff.mpr (List.mem_filter.mpr ⟨hs, decide_eq_true hconf⟩)

/-- Witness for C9: a single above-threshold suggestion survives into the
ranked output. -/
theorem c9_witness :
    (⟨sL "2019", sL "2020", sL "possible typo", 0.9⟩ : DateSuggestion)
      ∈ filterAndRankSuggestions [⟨sL "2019", sL "2020", sL "possible typo", 0.9⟩]
        ⟨⟨2026, 9, 11⟩, [], [], DEFAULT_VALIDATION_CONFIG, []⟩ :=
  (c9_suggestion_ranking [⟨sL "2019", sL "2020", sL "possible typo", 0.9⟩]
    ⟨⟨2026, 9, 11⟩, [], [], DEFAULT_VALIDATION_CONFIG, []⟩).2.2.2.1
    ⟨sL "2019", sL "2020", sL "possible typo", 0.9⟩ (by decide) (by decide)

/-- `startsWithL p l` holds exactly when `l` extends `p`. -/
theorem startsWithL_iff (p : Str) : ∀ l : Str, startsWithL p l = true ↔ ∃ r, l = p ++ r := by
  induction p with
  | nil => intro l; simp [startsWithL]
  | cons c cs ih =>
    intro l
    cases l with
    | nil => simp [startsWithL]
    | cons d ds =>
      simp only [startsWithL, Bool.and_eq_true, beq_iff_eq, ih, List.cons_append]
      constructor
      · rintro ⟨hcd, r, hr⟩
        exact ⟨r, by rw [hcd, hr]⟩
      · rintro ⟨r, hr⟩
        obtain ⟨h1, h2⟩ := List.cons.injEq .. ▸ hr
        exact ⟨h1.symm, r, h2⟩

/-- `containsL hay nd` holds exactly when `nd` occurs contiguously in
`hay`. -/
theorem containsL_iff (nd : Str) : ∀ hay : Str,
    containsL hay nd = true ↔ ∃ a b, hay = a ++ nd ++ b := by
  intro hay
  induction hay with
  | nil =>
    simp only [containsL, startsWithL_iff, Bool.or_eq_true]
    constructor
    · rintro (⟨r, hr⟩ | h)
      · exact ⟨[], r, hr⟩
      · cases h
    · rintro ⟨a, b, hab⟩
      have ha : a = [] := by
        cases a with
        | nil => rfl
        | cons x xs => simp at hab
      subst ha
      exact Or.inl ⟨b, hab⟩
  | cons c t ih =>
    simp only [containsL, startsWithL_iff, Bool.or_eq_true, ih]
    constructor
    · rintro (⟨r, hr⟩ | ⟨a, b, hab⟩)
      · exact ⟨[], r, hr⟩
      · exact ⟨c :: a, b, by simp [hab]⟩
    · rintro ⟨a, b, hab⟩
      cases a with
      | nil => exact Or.inl ⟨b, hab⟩
      | cons x xs =>
        obtain ⟨h1, h2⟩ := List.cons.injEq .. ▸ hab
        exact Or.inr ⟨xs, b, h2⟩

/-- Dropping a prefix whose scan stops at a character failing `p` preserves
any occurrence starting with that character. -/
theorem dropWhile_keep {p : Char → Bool} {k : Char} (hk : p k = false) :
    ∀ (a rest : Str), ∃ a2, List.dropWhile p (a ++ k :: rest) = a2 ++ k :: rest := by
  intro a rest
  induction a with
  | nil => exact ⟨[], by simp [List.dropWhile_cons, hk]⟩
  | cons c a ih =>
    by_cases hc : p c = true
    · obtain ⟨a2, ha2⟩ := ih
      exact ⟨a2, by simp [List.dropWhile_cons, hc, ha2]⟩
    · exact ⟨c :: a, by simp [List.dropWhile_cons, hc]⟩

/-- Trimming preserves any occurrence of a pattern whose first and last
characters are not whitespace. -/
theorem trimL_keeps_occurrence (kw a b : Str) (k klast : Char)
    (hhead : kw.head? = some k) (hk : k.isWhitespace = false)
    (hlastEq : kw.getLast? = some klast) (hlast : klast.isWhitespace = false) :
    ∃ a2 b2, trimL (a ++ kw ++ b) = a2 ++ kw ++ b2 := by
  obtain ⟨kw', rfl⟩ : ∃ kw', kw = k :: kw' := by
    cases kw with
    | nil => cases hhead
    | cons x xs =>
      obtain rfl : x = k := by cases hhead; rfl
      exact ⟨xs, rfl⟩
  obtain ⟨a2, ha2⟩ := dropWhile_keep hk a (kw' ++ b)
  obtain ⟨rev', hrev⟩ : ∃ rev', (k :: kw').reverse = klast :: rev' := by
    have hh : (k :: kw').reverse.head? = some klast := by
      rw [List.head?_reverse]; exact hlastEq
    cases hrevl : (k :: kw').reverse with
    | nil => rw [hrevl] at hh; cases hh
    | cons x xs =>
      rw [hrevl] at hh
      obtain rfl : x = klast := by cases hh; rfl
      exact ⟨xs, rfl⟩
  obtain ⟨b2, hb2⟩ := dropWhile_keep hlast b.reverse (rev' ++ a2.reverse)
  refine ⟨a2, b2.reverse, ?_⟩
  unfold trimL
  have hstep1 : List.dropWhile Char.isWhitespace (a ++ (k :: kw') ++ b)
      = a2 ++ (k :: kw') ++ b := by
    rw [List.append_assoc]
    simpa [List.append_assoc] using ha2
  rw [hstep1]
  have hstep2 : (a2 ++ (k :: kw') ++ b).reverse
      = b.reverse ++ (klast :: (rev' ++ a2.reverse)) := by
    rw [List.reverse_append, List.reverse_append, hrev]
    simp [List.append_assoc]
  rw [hstep2, hb2]
  have hrev2 : k :: kw' = rev'.reverse ++ [klast] := by
    have hcg := congrArg List.reverse hrev
    simpa using hcg
  rw [hrev2]
  simp [List.reverse_append, List.append_assoc]

/-- Characters with code point at least 33 are not whitespace. -/
theorem isWhitespace_eq_false_of_ge {d : Char} (h : 33 ≤ d.toNat) : d.isWhitespace = false := by
  have h1 : d ≠ ' ' := fun he => absurd h (by subst he; decide)
  have h2 : d ≠ '\t' := fun he => absurd h (by subst he; decide)
  have h3 : d ≠ '\r' := fun he => absurd h (by subst he; decide)
  have h4 : d ≠ '\n' := fun he => absurd h (by subst he; decide)
  simp [Char.isWhitespace, h1, h2, h3, h4]

/-- Lowercasing preserves whitespace-ness. -/
theorem isWhitespace_toLower (c : Char) :
    (Char.toLower c).isWhitespace = c.isWhitespace := by
  unfold Char.toLower
  by_cases h : c.toNat ≥ 65 ∧ c.toNat ≤ 90
  · rw [if_pos h]
    have ht : (Char.ofNat (c.toNat + 32)).toNat = c.toNat + 32 := by
      unfold Char.ofNat
      rw [dif_pos (Or.inl (by omega))]
      rfl
    rw [isWhitespace_eq_false_of_ge (by omega : 33 ≤ c.toNat),
      isWhitespace_eq_false_of_ge (by rw [ht]; omega)]
  · rw [if_neg h]

/-- Lowercasing commutes with trimming. -/
theorem toLowerL_trimL (s : Str) : toLowerL (trimL s) = trimL (toLowerL s) := by
  unfold toLowerL trimL
  have hcomp : (Char.isWhitespace ∘ Char.toLower) = Char.isWhitespace :=
    funext isWhitespace_toLower
  rw [List.dropWhile_map, hcomp, ← List.map_reverse, List.dropWhile_map, hcomp,
    ← List.map_reverse]

/-- Claim C7: any string that case-insensitively contains an ongoing keyword
parses to an ongoing `ParsedDate` normalized to the current date, with
format PRESENT and confidence 1.0. -/
theorem c7_ongoing_keywords (now : JSDate) (s : Str)
    (h : isOngoingIndicator (toLowerL s) = true) :
    parseDate now s =
      some ⟨s, now, DateFormat.PRESENT, true, FORMAT_CONFIDENCE_EXACT_MATCH⟩ := by
  obtain ⟨kw, hkwMem, hkwContains⟩ := List.any_eq_true.mp h
  have hAll : ONGOING_KEYWORDS.all (fun kw => !(toLowerL kw).isEmpty
      && !(((toLowerL kw).head?.getD ' ').isWhitespace)
      && !(((toLowerL kw).getLast?.getD ' ').isWhitespace)) = true := by decide
  have hkwFacts := List.all_eq_true.mp hAll kw hkwMem
  simp only [Bool.and_eq_true, Bool.not_eq_true'] at hkwFacts
  obtain ⟨⟨hkwNe, hkwHead⟩, hkwLast⟩ := hkwFacts
  obtain ⟨k, hk⟩ : ∃ k, (toLowerL kw).head? = some k := by
    cases hl : toLowerL kw with
    | nil => rw [hl] at hkwNe; cases hkwNe
    | cons x xs => exact ⟨x, rfl⟩
  obtain ⟨klast, hklast⟩ : ∃ klast, (toLowerL kw).getLast? = some klast := by
    cases hl : (toLowerL kw).getLast? with
    | none =>
      rw [List.getLast?_eq_head?_reverse] at hl
      cases hrl : (toLowerL kw).reverse with
      | nil =>
        have : toLowerL kw = [] := by
          have := congrArg List.reverse hrl
          simpa using this
        rw [this] at hkwNe; cases hkwNe
      | cons x xs => rw [hrl] at hl; cases hl
    | some x => exact ⟨x, rfl⟩
  have hkws : k.isWhitespace = false := by rw [hk] at hkwHead; simpa using hkwHead
  have hklastws : klast.isWhitespace = false := by rw [hklast] at hkwLast; simpa using hkwLast
  obtain ⟨a, b, hsplit⟩ := (containsL_iff (toLowerL kw) (toLowerL s)).mp hkwContains
  obtain ⟨a2, b2, htrim⟩ := trimL_keeps_occurrence (toLowerL kw) a b k klast hk hkws hklast hklastws
  rw [← hsplit] at htrim
  have hcomm := toLowerL_trimL s
  have hkwlNe : toLowerL kw ≠ [] := by
    intro he; rw [he] at hkwNe; cases hkwNe
  have hsNe : s ≠ [] := by
    intro he
    subst he
    simp only [toLowerL, List.map_nil] at hsplit
    have h1 := List.append_eq_nil.mp hsplit.symm
    have h2 := List.append_eq_nil.mp h1.1
    exact hkwlNe h2.2
  have htrimNe : trimL s ≠ [] := by
    intro he
    rw [he] at hcomm
    rw [← hcomm] at htrim
    simp only [toLowerL, List.map_nil] at htrim
    have h1 := List.append_eq_nil.mp htrim.symm
    have h2 := List.append_eq_nil.mp h1.1
    exact hkwlNe h2.2
  have hOngoing : isOngoingIndicator (toLowerL (trimL s)) = true := by
    unfold isOngoingIndicator
    refine List.any_eq_true.mpr ⟨kw, hkwMem, ?_⟩
    exact (containsL_iff (toLowerL kw) (toLowerL (trimL s))).mpr ⟨a2, b2, by rw [hcomm, htrim]⟩
  have hsEmpty : s.isEmpty = false := by
    cases s with
    | nil => exact absurd rfl hsNe
    | cons c t => rfl
  have htrimEmpty : (trimL s).isEmpty = false := by
    cases hts : trimL s with
    | nil => exact absurd hts htrimNe
    | cons c t => rfl
  unfold parseDate
  simp only [hsEmpty, htrimEmpty, Bool.false_eq_true, if_false, hOngoing, if_true]

/-- Witness for C7. -/
theorem c7_witness :
    parseDate ⟨2026, 9, 11⟩ (sL "Present") =
      some ⟨sL "Present", ⟨2026, 9, 11⟩, DateFormat.PRESENT, true,
        FORMAT_CONFIDENCE_EXACT_MATCH⟩ :=
  c7_ongoing_keywords ⟨2026, 9, 11⟩ (sL "Present") (by decide)

/-- Characters equal as code points are equal. -/
theorem char_eq_of_toNat {c d : Char} (h : c.toNat = d.toNat) : c = d := by
  have h2 : Char.ofNat c.toNat = Char.ofNat d.toNat := by rw [h]
  rw [Char.ofNat_toNat, Char.ofNat_toNat] at h2
  exact h2

/-- Digit characters have code points between 48 and 57. -/
theorem digit_toNat_bounds {c : Char} (h : c.isDigit = true) :
    48 ≤ c.toNat ∧ c.toNat ≤ 57 := by
  simpa [Char.isDigit] using h

/-- `toLower` fixes every character below the uppercase range. -/
theorem toLower_eq_self_of_lt {c : Char} (h : c.toNat < 65) : Char.toLower c = c := by
  unfold Char.toLower
  rw [if_neg (by omega : ¬(c.toNat ≥ 65 ∧ c.toNat ≤ 90))]

/-- `dropWhile` is the identity when every element fails the predicate. -/
theorem dropWhile_eq_self_of (p : Char → Bool) (l : Str)
    (h : ∀ c ∈ l, p c = false) : List.dropWhile p l = l := by
  rcases l with _ | ⟨c, t⟩
  · rfl
  · have hc : p c = false := h c (List.mem_cons_self c t)
    rw [List.dropWhile_cons, if_neg (by simp [hc])]

/-- Trimming is the identity on whitespace-free strings. -/
theorem trimL_eq_self (l : Str) (h : ∀ c ∈ l, c.isWhitespace = false) :
    trimL l = l := by
  unfold trimL
  rw [dropWhile_eq_self_of _ _ h]
  rw [dropWhile_eq_self_of _ _ (fun c hc => h c (List.mem_reverse.mp hc))]
  exact List.reverse_reverse l

/-- Lowercasing is the identity on strings without uppercase-range
characters. -/
theorem toLowerL_eq_self (l : Str) (h : ∀ c ∈ l, c.toNat < 65) : toLowerL l = l := by
  induction l with
  | nil => rfl
  | cons c t ih =>
    have hc := toLower_eq_self_of_lt (h c (List.mem_cons_self c t))
    have ht := ih (fun d hd => h d (List.mem_cons_of_mem c hd))
    simp only [toLowerL, List.map_cons] at ht ⊢
    rw [hc, ht]

/-- A string of code points at most 57 (digits and slashes) contains no
ongoing keyword: every keyword starts with a lowercase letter. -/
theorem isOngoingIndicator_false_of (l : Str) (h : ∀ c ∈ l, c.toNat ≤ 57) :
    isOngoingIndicator l = false := by
  unfold isOngoingIndicator
  rw [List.any_eq_false]
  intro kw hkw hc
  obtain ⟨a, b, hab⟩ := (containsL_iff (toLowerL kw) l).mp hc
  have hhead : 96 < ((toLowerL kw).head?.getD ' ').toNat := by
    have hall2 : ONGOING_KEYWORDS.all
        (fun kw => decide (96 < ((toLowerL kw).head?.getD ' ').toNat)) = true := by decide
    simpa using List.all_eq_true.mp hall2 kw hkw
  rcases htl : toLowerL kw with _ | ⟨k, ks⟩
  · rw [htl] at hhead
    exact absurd hhead (by decide)
  · rw [htl] at hhead hab
    have hkmem : k ∈ l := by
      rw [hab]
      exact List.mem_append_left _ (List.mem_append_right _ (List.mem_cons_self k ks))
    have hk57 := h k hkmem
    simp only [List.head?_cons, Option.getD_some] at hhead
    omega

/-- The month-year matcher fails on digit/slash text: every month-name
alternative starts with a letter. -/
theorem matchMonthYearAt_eq_none (prev : Option Char) (l : Str)
    (h : ∀ c ∈ l, c.toNat ≤ 57) : matchMonthYearAt prev l = none := by
  have hfind : monthAlternatives.findSome? (tryMonthAlt l) = none := by
    rw [List.findSome?_eq_none_iff]
    intro name hname
    have hhead : 96 < ((name.head?.getD ' ').toNat) := by
      have hall2 : monthAlternatives.all
          (fun nm => decide (96 < (nm.head?.getD ' ').toNat)) = true := by decide
      simpa using List.all_eq_true.mp hall2 name hname
    obtain ⟨n, ns, rfl⟩ : ∃ n ns, name = n :: ns := by
      rcases name with _ | ⟨n, ns⟩
      · exact absurd hhead (by decide)
      · exact ⟨n, ns, rfl⟩
    have hn : 96 < n.toNat := by simpa using hhead
    have hci : ciStartsWithL (n :: ns) l = false := by
      rcases l with _ | ⟨c, cs⟩
      · rfl
      · have hc := h c (List.mem_cons_self c cs)
        have hlc : Char.toLower c = c := toLower_eq_self_of_lt (by omega)
        have hne : (n == c) = false := by
          rw [beq_eq_false_iff_ne]
          intro he
          rw [he] at hn
          omega
        simp [ciStartsWithL, hlc, hne]
    unfold tryMonthAlt
    simp [hci]
  unfold matchMonthYearAt
  rw [hfind]
  simp

/-- A leftmost search fails when the matcher fails at every position of a
text all of whose characters satisfy a fixed predicate. -/
theorem firstMatchIdx_eq_none (m : Option Char → Str → Option β)
    (P : Char → Prop) (hm : ∀ prev l, (∀ c ∈ l, P c) → m prev l = none) :
    ∀ (l : Str) (prev : Option Char) (i : Nat), (∀ c ∈ l, P c) →
      firstMatchIdx m prev l i = none := by
  intro l
  induction l with
  | nil =>
    intro prev i h
    simp [firstMatchIdx, hm prev [] (by intro c hc; cases hc)]
  | cons c t ih =>
    intro prev i h
    have hrest := ih (some c) (i + 1) (fun d hd => h d (List.mem_cons_of_mem c hd))
    simp only [firstMatchIdx, hm prev (c :: t) h]
    exact hrest

/-- `parseMonthYear` returns null on digit/slash-only text. -/
theorem parseMonthYear_eq_none (now : JSDate) (l : Str)
    (h : ∀ c ∈ l, c.toNat ≤ 57) : parseMonthYear now l = none := by
  have hf : firstMatchIdx matchMonthYearAt none l 0 = none :=
    firstMatchIdx_eq_none matchMonthYearAt (fun c => c.toNat ≤ 57)
      (fun prev l2 h2 => matchMonthYearAt_eq_none prev l2 h2) l none 0 h
  simp [parseMonthYear, firstMatch, hf]

/-- The year-only matcher fails when the second character is a slash. -/
theorem matchYO_none_slash2 (prev : Option Char) (c1 : Char) (rest : Str) :
    matchYearOnlyAt prev (c1 :: '/' :: rest) = none := by
  have e9 : (('/' : Char) == '9') = false := by decide
  have e0 : (('/' : Char) == '0') = false := by decide
  rcases rest with _ | ⟨c3, _ | ⟨c4, rr⟩⟩
  · simp [matchYearOnlyAt]
  · simp [matchYearOnlyAt]
  · simp [matchYearOnlyAt, e9, e0]

/-- The year-only matcher fails when the third character is a slash. -/
theorem matchYO_none_slash3 (prev : Option Char) (c1 c2 : Char) (rest : Str) :
    matchYearOnlyAt prev (c1 :: c2 :: '/' :: rest) = none := by
  have ed : (('/' : Char).isDigit) = false := by decide
  rcases rest with _ | ⟨c4, rr⟩
  · simp [matchYearOnlyAt]
  · simp [matchYearOnlyAt, ed]

/-- The year-only matcher fails right after a digit (no word boundary). -/
theorem matchYO_none_after_digit {p : Char} (hp : p.isDigit = true) (l : Str) :
    matchYearOnlyAt (some p) l = none := by
  simp [matchYearOnlyAt, boundaryBeforeOk, isWordChar, hp]

/-- The year-only matcher succeeds on a bare 19xx/20xx year after a slash. -/
theorem matchYO_success (y1 y2 y3 y4 : Char) (h3 : y3.isDigit = true)
    (h4 : y4.isDigit = true)
    (h12 : ((y1 == '1' && y2 == '9') || (y1 == '2' && y2 == '0')) = true) :
    matchYearOnlyAt (some '/') [y1, y2, y3, y4] =
      some (4, digitsVal [y1, y2, y3, y4]) := by
  have hw : isWordChar '/' = false := by decide
  simp [matchYearOnlyAt, boundaryBeforeOk, boundaryAfterOk, hw, h12, h3, h4]

/-- On digit/slash-only text whose year-only search hits a valid year,
`parseDate` commits to the YEAR_ONLY interpretation. -/
theorem parseDate_yearOnly_of (now : JSDate) (L : Str) (Y : Nat)
    (hne : L.isEmpty = false)
    (hall : ∀ c ∈ L, 47 ≤ c.toNat ∧ c.toNat ≤ 57)
    (hfm : firstMatch matchYearOnlyAt L = some (4, Y))
    (hvy : isValidYear now Y = true) :
    parseDate now L = some ⟨L, ⟨(Y : Int), 0, 1⟩, DateFormat.YEAR_ONLY, false,
      FORMAT_CONFIDENCE_PATTERN_MATCH⟩ := by
  have htrim : trimL L = L :=
    trimL_eq_self L (fun c hc => isWhitespace_eq_false_of_ge
      (by have := (hall c hc).1; omega))
  have hlower : toLowerL L = L :=
    toLowerL_eq_self L (fun c hc => by have := (hall c hc).2; omega)
  have hong : isOngoingIndicator L = false :=
    isOngoingIndicator_false_of L (fun c hc => (hall c hc).2)
  have hmy : parseMonthYear now L = none :=
    parseMonthYear_eq_none now L (fun c hc => (hall c hc).2)
  have hyo : parseYearOnly now L =
      some (⟨(Y : Int), 0, 1⟩, DateFormat.YEAR_ONLY, FORMAT_CONFIDENCE_PATTERN_MATCH) := by
    simp [parseYearOnly, hfm, hvy]
  unfold parseDate
  rw [htrim, hlower]
  simp [hne, hong, hmy, hyo]

/-- `isValidDate` checks `isValidYear` on the way. -/
theorem isValidDate_imp_isValidYear {now : JSDate} {m d y : Nat}
    (h : isValidDate now m d y = true) : isValidYear now y = true := by
  unfold isValidDate at h
  cases hvy : isValidYear now y with
  | true => rfl
  | false =>
    rw [hvy] at h
    simp at h

/-- Claim C10: on any M/D/YYYY string with a month, a day valid for it and a
4-digit year accepted by the validity check (current year at most 2089, so
the year starts 19 or 20), `parseDate` returns the YEAR_ONLY reading
normalized to January 1st of that year — the year-only pattern matches the
embedded year first, so the full-date parser is never reached. -/
theorem c10_year_only_shadows_full_date (now : JSDate) (mcs dcs ycs : Str)
    (hm : mcs.all Char.isDigit = true) (hd : dcs.all Char.isDigit = true)
    (hy : ycs.all Char.isDigit = true)
    (hmLen : mcs.length = 1 ∨ mcs.length = 2)
    (hdLen : dcs.length = 1 ∨ dcs.length = 2)
    (hyLen : ycs.length = 4)
    (hvalid : isValidDate now (digitsVal mcs) (digitsVal dcs) (digitsVal ycs) = true)
    (hnow : now.year ≤ 2089) :
    parseDate now (mcs ++ '/' :: (dcs ++ '/' :: ycs)) =
      some ⟨mcs ++ '/' :: (dcs ++ '/' :: ycs), ⟨(digitsVal ycs : Int), 0, 1⟩,
        DateFormat.YEAR_ONLY, false, FORMAT_CONFIDENCE_PATTERN_MATCH⟩ := by
  rcases ycs with _ | ⟨y1, ycs⟩
  · simp at hyLen
  rcases ycs with _ | ⟨y2, ycs⟩
  · simp at hyLen
  rcases ycs with _ | ⟨y3, ycs⟩
  · simp at hyLen
  rcases ycs with _ | ⟨y4, ycs⟩
  · simp at hyLen
  have hynil : ycs = [] := by
    simp only [List.length_cons] at hyLen
    rcases ycs with _ | ⟨y5, ycs⟩
    · rfl
    · simp only [List.length_cons] at hyLen; omega
  subst hynil
  simp only [List.all_cons, List.all_nil, Bool.and_eq_true, Bool.and_true] at hy
  obtain ⟨hy1, hy2, hy3, hy4⟩ := hy
  have hb1 := digit_toNat_bounds hy1
  have hb2 := digit_toNat_bounds hy2
  have hb3 := digit_toNat_bounds hy3
  have hb4 := digit_toNat_bounds hy4
  have hvy : isValidYear now (digitsVal [y1, y2, y3, y4]) = true :=
    isValidDate_imp_isValidYear hvalid
  have hyb : 1950 ≤ digitsVal [y1, y2, y3, y4] ∧
      (digitsVal [y1, y2, y3, y4] : Int) ≤ now.year + 10 := by
    simpa [isValidYear] using hvy
  have hYdef : digitsVal [y1, y2, y3, y4] =
      (((0 * 10 + (y1.toNat - 48)) * 10 + (y2.toNat - 48)) * 10 +
        (y3.toNat - 48)) * 10 + (y4.toNat - 48) := rfl
  have hyd : (y1.toNat = 49 ∧ y2.toNat = 57) ∨ (y1.toNat = 50 ∧ y2.toNat = 48) := by
    obtain ⟨hA, hB⟩ := hyb
    rw [hYdef] at hA hB
    omega
  have h12 : ((y1 == '1' && y2 == '9') || (y1 == '2' && y2 == '0')) = true := by
    rcases hyd with ⟨ha, hb⟩ | ⟨ha, hb⟩
    · have e1 : y1 = '1' := char_eq_of_toNat (by rw [ha]; decide)
      have e2 : y2 = '9' := char_eq_of_toNat (by rw [hb]; decide)
      rw [e1, e2]; decide
    · have e1 : y1 = '2' := char_eq_of_toNat (by rw [ha]; decide)
      have e2 : y2 = '0' := char_eq_of_toNat (by rw [hb]; decide)
      rw [e1, e2]; decide
  have hsucc := matchYO_success y1 y2 y3 y4 hy3 hy4 h12
  rcases mcs with _ | ⟨m1, _ | ⟨m2, _ | ⟨m3, mr⟩⟩⟩
  · simp at hmLen
  · rcases dcs with _ | ⟨d1, _ | ⟨d2, _ | ⟨d3, dr⟩⟩⟩
    · simp at hdLen
    · -- shape M = [m1], D = [d1]
      simp only [List.all_cons, List.all_nil, Bool.and_eq_true, Bool.and_true] at hm hd
      simp only [List.cons_append, List.nil_append]
      have hall : ∀ c ∈ (m1 :: '/' :: d1 :: '/' :: y1 :: y2 :: y3 :: y4 :: ([] : Str)),
          47 ≤ c.toNat ∧ c.toNat ≤ 57 := by
        have hbm1 := digit_toNat_bounds hm
        have hbd1 := digit_toNat_bounds hd
        intro c hc
        simp only [List.mem_cons, List.not_mem_nil, or_false] at hc
        rcases hc with rfl | rfl | rfl | rfl | rfl | rfl | rfl | rfl <;>
          first | exact ⟨by decide, by decide⟩ | omega
      have hfm : firstMatch matchYearOnlyAt
          (m1 :: '/' :: d1 :: '/' :: y1 :: y2 :: y3 :: y4 :: ([] : Str)) =
          some (4, digitsVal [y1, y2, y3, y4]) := by
        simp [firstMatch, firstMatchIdx, matchYO_none_slash2,
          matchYO_none_after_digit hm, matchYO_none_after_digit hd, hsucc]
      exact parseDate_yearOnly_of now _ _ rfl hall hfm hvy
    · -- shape M = [m1], D = [d1, d2]
      simp only [List.all_cons, List.all_nil, Bool.and_eq_true, Bool.and_true] at hm hd
      obtain ⟨hd1, hd2⟩ := hd
      simp only [List.cons_append, List.nil_append]
      have hall : ∀ c ∈ (m1 :: '/' :: d1 :: d2 :: '/' :: y1 :: y2 :: y3 :: y4 :: ([] : Str)),
          47 ≤ c.toNat ∧ c.toNat ≤ 57 := by
        have hbm1 := digit_toNat_bounds hm
        have hbd1 := digit_toNat_bounds hd1
        have hbd2 := digit_toNat_bounds hd2
        intro c hc
        simp only [List.mem_cons, List.not_mem_nil, or_false] at hc
        rcases hc with rfl | rfl | rfl | rfl | rfl | rfl | rfl | rfl | rfl <;>
          first | exact ⟨by decide, by decide⟩ | omega
      have hfm : firstMatch matchYearOnlyAt
          (m1 :: '/' :: d1 :: d2 :: '/' :: y1 :: y2 :: y3 :: y4 :: ([] : Str)) =
          some (4, digitsVal [y1, y2, y3, y4]) := by
        simp [firstMatch, firstMatchIdx, matchYO_none_slash2, matchYO_none_slash3,
          matchYO_none_after_digit hm, matchYO_none_after_digit hd1,
          matchYO_none_after_digit hd2, hsucc]
      exact parseDate_yearOnly_of now _ _ rfl hall hfm hvy
    · simp only [List.length_cons] at hdLen
      rcases hdLen with h | h <;> omega
  · rcases dcs with _ | ⟨d1, _ | ⟨d2, _ | ⟨d3, dr⟩⟩⟩
    · simp at hdLen
    · -- shape M = [m1, m2], D = [d1]
      simp only [List.all_cons, List.all_nil, Bool.and_eq_true, Bool.and_true] at hm hd
      obtain ⟨hm1, hm2⟩ := hm
      simp only [List.cons_append, List.nil_append]
      have hall : ∀ c ∈ (m1 :: m2 :: '/' :: d1 :: '/' :: y1 :: y2 :: y3 :: y4 :: ([] : Str)),
          47 ≤ c.toNat ∧ c.toNat ≤ 57 := by
        have hbm1 := digit_toNat_bounds hm1
        have hbm2 := digit_toNat_bounds hm2
        have hbd1 := digit_toNat_bounds hd
        intro c hc
        simp only [List.mem_cons, List.not_mem_nil, or_false] at hc
        rcases hc with rfl | rfl | rfl | rfl | rfl | rfl | rfl | rfl | rfl <;>
          first | exact ⟨by decide, by decide⟩ | omega
      have hfm : firstMatch matchYearOnlyAt
          (m1 :: m2 :: '/' :: d1 :: '/' :: y1 :: y2 :: y3 :: y4 :: ([] : Str)) =
          some (4, digitsVal [y1, y2, y3, y4]) := by
        simp [firstMatch, firstMatchIdx, matchYO_none_slash2, matchYO_none_slash3,
          matchYO_none_after_digit hm1, matchYO_none_after_digit hm2,
          matchYO_none_after_digit hd, hsucc]
      exact parseDate_yearOnly_of now _ _ rfl hall hfm hvy
    · -- shape M = [m1, m2], D = [d1, d2]
      simp only [List.all_cons, List.all_nil, Bool.and_eq_true, Bool.and_true] at hm hd
      obtain ⟨hm1, hm2⟩ := hm
      obtain ⟨hd1, hd2⟩ := hd
      simp only [List.cons_append, List.nil_append]
      have hall : ∀ c ∈ (m1 :: m2 :: '/' :: d1 :: d2 :: '/' :: y1 :: y2 :: y3 :: y4 :: ([] : Str)),
          47 ≤ c.toNat ∧ c.toNat ≤ 57 := by
        have hbm1 := digit_toNat_bounds hm1
        have hbm2 := digit_toNat_bounds hm2
        have hbd1 := digit_toNat_bounds hd1
        have hbd2 := digit_toNat_bounds hd2
        intro c hc
        simp only [List.mem_cons, List.not_mem_nil, or_false] at hc
        rcases hc with rfl | rfl | rfl | rfl | rfl | rfl | rfl | rfl | rfl | rfl <;>
          first | exact ⟨by decide, by decide⟩ | omega
      have hfm : firstMatch matchYearOnlyAt
          (m1 :: m2 :: '/' :: d1 :: d2 :: '/' :: y1 :: y2 :: y3 :: y4 :: ([] : Str)) =
          some (4, digitsVal [y1, y2, y3, y4]) := by
        simp [firstMatch, firstMatchIdx, matchYO_none_slash2, matchYO_none_slash3,
          matchYO_none_after_digit hm1, matchYO_none_after_digit hm2,
          matchYO_none_after_digit hd1, matchYO_none_after_digit hd2, hsucc]
      exact parseDate_yearOnly_of now _ _ rfl hall hfm hvy
    · simp only [List.length_cons] at hdLen
      rcases hdLen with h | h <;> omega
  · simp only [List.length_cons] at hmLen
    rcases hmLen with h | h <;> omega

/-- Witness for C10: "01/15/2023" parses as the bare year 2023. -/
theorem c10_witness :
    parseDate ⟨2026, 9, 11⟩ (sL "01/15/2023") =
      some ⟨sL "01/15/2023", ⟨2023, 0, 1⟩, DateFormat.YEAR_ONLY, false,
        FORMAT_CONFIDENCE_PATTERN_MATCH⟩ := by
  have h := c10_year_only_shadows_full_date ⟨2026, 9, 11⟩ (sL "01") (sL "15")
    (sL "2023") (by decide) (by decide) (by decide) (by decide) (by decide)
    (by decide) (by decide) (by decide)
  exact h
